import Mathlib

/-!
# minipro: the command/response protocol layer of `minipro.c`

A shallow embedding of `src/minipro.c`.  Bytes are natural numbers, every store
into a byte buffer is written with its truncation `% 256`.  The shared global
array `msg`, the behaviour of the USB transport and the record of the bulk
transfers that were requested are carried in an explicit `World`; an operation
is a function from a `World` to an outcome and the `World` it leaves behind.

Accesses outside an array are undefined in C.  A store outside the list is
dropped here and a read outside yields `0`; a theorem about bytes of `msg` assumes
that the array is long enough to hold them.
-/

namespace Minipro

/-! ## Data model -/

/-- Byte order argument of `format_int` and `load_int`. -/
inductive Endianness
  | MP_LITTLE_ENDIAN
  | MP_BIG_ENDIAN
deriving DecidableEq, Repr

/-- Modelled from the spec: `device_t` of `minipro.h` (section 3, DeviceDescriptor); only
the fields `minipro.c` reads. They are `unsigned int` values, truncated where they are
stored into bytes. -/
structure device_t where
  protocol_id : Nat
  variant : Nat
  data_memory_size : Nat
  opts1 : Nat
  opts2 : Nat
  opts3 : Nat
  read_buffer_size : Nat
  write_buffer_size : Nat
  chip_id_bytes_count : Nat
  write_unlock : Nat
deriving DecidableEq, Repr

/-- The handle of `minipro.h` as far as the protocol layer reads it: the descriptor.
The USB side of the handle is the transport part of `World`. -/
structure minipro_handle_t where
  device : device_t
deriving DecidableEq, Repr

/-- Modelled from the spec: `minipro_system_info_t` of `minipro.h`, the record filled in
by `minipro_get_system_info` (section 3, SystemInfo); `protocol` holds a byte. -/
structure minipro_system_info_t where
  protocol : Nat
  model_str : String
  firmware_str : String
  firmware : Nat
deriving DecidableEq, Repr

/-- The constants of `minipro.h` that `minipro.c` names, taken as parameters, and
whether plain `char` is a signed type on the platform (it decides what `%d` prints
for a `char` of value 128 or more). -/
structure Constants where
  MP_REQUEST_STATUS1_MSG1 : Nat
  MP_REQUEST_STATUS1_MSG2 : Nat
  MP_GET_CHIP_ID : Nat
  MP_GET_SYSTEM_INFO : Nat
  MP_PREPARE_WRITING : Nat
  MP_TL866A : Nat
  MP_TL866CS : Nat
  MP_FIRMWARE_VERSION : Nat
  char_signed : Bool
deriving DecidableEq, Repr

/-- The ways an operation aborts: the `ERROR` calls of `minipro.c`, named as in section 7
of the specification (`IOFault` is its `IOError`, the short transfer). -/
inductive Fault
  | IOFault
  | OvercurrentFault
  | UnsupportedProtocolVersion
  | UnknownDeviceModel
  | VerificationFailure
deriving DecidableEq, Repr

/-- A bulk transfer the program requested: an OUT transfer with the bytes handed to
the transport, or an IN transfer with the number of bytes asked for. -/
inductive Event
  | out (frame : List Nat)
  | inp (length : Nat)
deriving DecidableEq, Repr

/-- The state an operation runs in.
* `msg`: the global array `msg`; its length is `MAX_WRITE_BUFFER_SIZE`.
* `sendCounts`: for the OUT transfers still to come, the `bytes_transferred` the
  transport will report, in order; when the list is used up it reports `0`.
* `responses`: for the IN transfers still to come, the bytes the transport will
  deliver, in order; it reports their number as `bytes_transferred`; when the list
  is used up it delivers nothing.
* `wire`: the transfers requested so far, oldest first.
* `stderr`: the lines written to `stderr` by `minipro.c` itself. -/
structure World where
  msg : List Nat
  sendCounts : List Nat
  responses : List (List Nat)
  wire : List Event
  stderr : List String
deriving DecidableEq, Repr

/-- What an operation leaves: its result or the fault that aborted it, and the state. -/
abbrev Outcome (α : Type) := Except Fault α × World

/-- An operation of the protocol layer. -/
def Prog (α : Type) : Type := World → Outcome α

/-- Run an operation in a state. -/
def Prog.run {α : Type} (p : Prog α) (w : World) : Outcome α := p w

/-- Sequencing: the second operation runs only when the first did not abort. -/
def Prog.bind {α β : Type} (p : Prog α) (f : α → Prog β) : Prog β := fun w =>
  match p w with
  | (.ok a, w1) => f a w1
  | (.error e, w1) => (.error e, w1)

instance instMonadProg : Monad Prog where
  pure a := fun w => (.ok a, w)
  bind := Prog.bind

/-- Modelled from the spec: the macros `ERROR` and `ERROR2` of `error.h`; the fault
aborts the operation at once (section 7: every fault is surfaced immediately). -/
def ERROR {α : Type} (f : Fault) : Prog α := fun w => (.error f, w)

/-- Read the global array `msg`. -/
def getMsg : Prog (List Nat) := fun w => (.ok w.msg, w)

/-- Replace the contents of the global array `msg`. -/
def setMsg (m : List Nat) : Prog Unit := fun w => (.ok (), { w with msg := m })

/-! ## Byte buffers -/

/-- The store `dst[off .. off + src.length) = src` of a `memcpy` or of a transfer
into a buffer. -/
def store (dst : List Nat) (off : Nat) : List Nat → List Nat
  | [] => dst
  | b :: bs => store (dst.set off b) (off + 1) bs

/-- The call `memcpy(&dst[off], &src[from], n)`. -/
def memcpy (dst : List Nat) (off : Nat) (src : List Nat) (start n : Nat) : List Nat :=
  store dst off ((List.range n).map fun i => src.getD (start + i) 0)

/-- Modelled from the spec: the byte sequence of `format_int` of `byte_utils.h`
(section 4.1, `pack`): the low-order `length` bytes of `value` in the given byte order. -/
def pack (value length : Nat) (endianess : Endianness) : List Nat :=
  (List.range length).map fun i =>
    match endianess with
    | .MP_LITTLE_ENDIAN => value / 256 ^ i % 256
    | .MP_BIG_ENDIAN => value / 256 ^ (length - 1 - i) % 256

/-- Modelled from the spec: `format_int(&out[off], value, length, endianess)` of
`byte_utils.h` (section 4.1, `pack`), writing the packed bytes at `out[off ..]`. -/
def format_int (out : List Nat) (off value length : Nat) (endianess : Endianness) : List Nat :=
  store out off (pack value length endianess)

/-- Modelled from the spec: `load_int(&buffer[off], size, endianess)` of `byte_utils.h`
(section 4.1, `unpack`, the reverse of `pack`): the unsigned integer whose `size` bytes,
in the given byte order, are `buffer[off .. off + size)`. -/
def load_int (buffer : List Nat) (off size : Nat) (endianess : Endianness) : Nat :=
  ((List.range size).map fun i =>
    match endianess with
    | .MP_LITTLE_ENDIAN => buffer.getD (off + i) 0 * 256 ^ i
    | .MP_BIG_ENDIAN => buffer.getD (off + i) 0 * 256 ^ (size - 1 - i)).sum

/-! ## The transport and the header -/

/-- Direction of a bulk transfer (`LIBUSB_ENDPOINT_OUT`, `LIBUSB_ENDPOINT_IN`). -/
inductive Direction
  | LIBUSB_ENDPOINT_OUT
  | LIBUSB_ENDPOINT_IN
deriving DecidableEq, Repr

/-- The function `msg_transfer`: one `libusb_bulk_transfer` on `buf`, then the check of
`bytes_transferred` against `length`.  Gives the value returned (or the fault), the
buffer as the transfer left it, and the state. -/
def msg_transfer (buf : List Nat) (length : Nat) (direction : Direction) (w : World) :
    Except Fault Nat × List Nat × World :=
  match direction with
  | .LIBUSB_ENDPOINT_OUT =>
    let bytes_transferred := w.sendCounts.headD 0
    let w1 := { w with sendCounts := w.sendCounts.tail,
                       wire := w.wire ++ [Event.out (buf.take length)] }
    if bytes_transferred ≠ length then (.error .IOFault, buf, w1)
    else (.ok bytes_transferred, buf, w1)
  | .LIBUSB_ENDPOINT_IN =>
    let data := w.responses.headD []
    let bytes_transferred := data.length
    let buf1 := store buf 0 (data.take length)
    let w1 := { w with responses := w.responses.tail,
                       wire := w.wire ++ [Event.inp length] }
    if bytes_transferred ≠ length then (.error .IOFault, buf1, w1)
    else (.ok bytes_transferred, buf1, w1)

/-- The function `msg_send`; every call in `minipro.c` passes the global array `msg`. -/
def msg_send (length : Nat) : Prog Nat := fun w =>
  let r := msg_transfer w.msg length .LIBUSB_ENDPOINT_OUT w
  (r.1, { r.2.2 with msg := r.2.1 })

/-- The function `msg_recv` called on the global array `msg`, which receives the bytes. -/
def msg_recv (length : Nat) : Prog Nat := fun w =>
  let r := msg_transfer w.msg length .LIBUSB_ENDPOINT_IN w
  (r.1, { r.2.2 with msg := r.2.1 })

/-- The function `msg_recv` called on a buffer `buf` other than `msg` (a local array or
the caller's buffer); gives the buffer with the received bytes. -/
def msg_recv_into (buf : List Nat) (length : Nat) : Prog (List Nat) := fun w =>
  let r := msg_transfer buf length .LIBUSB_ENDPOINT_IN w
  (r.1.map (fun _ => r.2.1), r.2.2)

/-- The function `msg_init`; at every call `out_buf` is the global array `msg`. -/
def msg_init (cmd : Nat) (device : device_t) : Prog Unit := do
  let m ← getMsg
  let m := m.set 0 (cmd % 256)
  let m := m.set 1 (device.protocol_id % 256)
  let m := m.set 2 (device.variant % 256)
  let m := m.set 3 0x00
  let m := m.set 4 (device.data_memory_size >>> 8 &&& 0xFF)
  let m := format_int m 5 device.opts1 2 .MP_LITTLE_ENDIAN
  let m := m.set 8 (m.getD 6 0)
  let m := format_int m 6 device.opts2 2 .MP_LITTLE_ENDIAN
  let m := format_int m 9 device.opts3 2 .MP_LITTLE_ENDIAN
  setMsg m

/-! ## The operations -/

/-- The function `minipro_begin_transaction`. -/
def minipro_begin_transaction (c : Constants) (handle : minipro_handle_t) : Prog Unit := do
  let m ← getMsg
  setMsg (List.replicate m.length 0)
  msg_init c.MP_REQUEST_STATUS1_MSG1 handle.device
  let _ ← msg_send 48

/-- The function `minipro_end_transaction`. -/
def minipro_end_transaction (handle : minipro_handle_t) : Prog Unit := do
  msg_init 0x04 handle.device
  let m ← getMsg
  setMsg (m.set 3 0x00)
  let _ ← msg_send 4

/-- The function `minipro_get_status`.  The local array `buf` is not initialised in C;
it starts here as 32 zero bytes.  The value returned has 16 bits and fits the `int`
of the C function. -/
def minipro_get_status (c : Constants) (handle : minipro_handle_t) : Prog Nat := do
  let buf := List.replicate 32 0
  msg_init c.MP_REQUEST_STATUS1_MSG2 handle.device
  let _ ← msg_send 5
  let buf ← msg_recv_into buf 32
  if buf.getD 9 0 ≠ 0 then
    ERROR .OvercurrentFault
  else
    pure (load_int buf 0 2 .MP_LITTLE_ENDIAN)

/-- The function `minipro_read_block`; `buf` is the caller's buffer, returned with the
received bytes. -/
def minipro_read_block (handle : minipro_handle_t) (type addr : Nat) (buf : List Nat) :
    Prog (List Nat) := do
  msg_init type handle.device
  let m ← getMsg
  let m := format_int m 2 handle.device.read_buffer_size 2 .MP_LITTLE_ENDIAN
  let m := format_int m 4 addr 3 .MP_LITTLE_ENDIAN
  setMsg m
  let _ ← msg_send 18
  msg_recv_into buf handle.device.read_buffer_size

/-- The function `minipro_write_block`; `buf` is the caller's payload. -/
def minipro_write_block (handle : minipro_handle_t) (type addr : Nat) (buf : List Nat) :
    Prog Unit := do
  msg_init type handle.device
  let m ← getMsg
  let m := format_int m 2 handle.device.write_buffer_size 2 .MP_LITTLE_ENDIAN
  let m := format_int m 4 addr 3 .MP_LITTLE_ENDIAN
  let m := memcpy m 7 buf 0 handle.device.write_buffer_size
  setMsg m
  let _ ← msg_send (7 + handle.device.write_buffer_size)

/-- The value of type `int` (32 bits, two's complement) that holds the low 32 bits of
an unsigned value: the value itself below `2 ^ 31`, the value minus `2 ^ 32` from there. -/
def int_of_unsigned (v : Nat) : Int :=
  if v % 2 ^ 32 < 2 ^ 31 then ((v % 2 ^ 32 : Nat) : Int) else ((v % 2 ^ 32 : Nat) : Int) - 2 ^ 32

/-- The function `minipro_get_chip_id`; it returns an `int`, and an identifier of 4 bytes
can exceed `INT_MAX`. -/
def minipro_get_chip_id (c : Constants) (handle : minipro_handle_t) : Prog Int := do
  msg_init c.MP_GET_CHIP_ID handle.device
  let _ ← msg_send 8
  let _ ← msg_recv (5 + handle.device.chip_id_bytes_count)
  let m ← getMsg
  pure (int_of_unsigned (load_int m 2 handle.device.chip_id_bytes_count .MP_BIG_ENDIAN))

/-- The function `minipro_read_fuses`; `buf` is the caller's buffer, returned with the
fuse bytes. -/
def minipro_read_fuses (handle : minipro_handle_t) (type length : Nat) (buf : List Nat) :
    Prog (List Nat) := do
  msg_init type handle.device
  let m ← getMsg
  let m := m.set 2 (if type = 18 ∧ length = 4 then 2 else 1)
  let m := m.set 5 0x10
  setMsg m
  let _ ← msg_send 18
  let _ ← msg_recv (7 + length)
  let m ← getMsg
  pure (memcpy buf 0 m 7 length)

/-- The `switch` of `minipro_write_fuses` that performs the actual writing. -/
def write_fuses_switch (handle : minipro_handle_t) (type length : Nat) (buf : List Nat) :
    Prog Unit :=
  if type &&& 0xf0 = 0x10 then do
    msg_init (type + 1) handle.device
    let m ← getMsg
    let m := m.set 2 (if length = 4 then 0x02 else 0x01)
    let m := m.set 4 0xc8
    let m := m.set 5 0x0f
    let m := m.set 6 0x00
    let m := memcpy m 7 buf 0 length
    setMsg m
    let _ ← msg_send 64
  else if type &&& 0xf0 = 0x40 then do
    msg_init (type - 1) handle.device
    let m ← getMsg
    let m := memcpy m 7 buf 0 length
    setMsg m
    let _ ← msg_send 10
  else
    pure ()

/-- The function `minipro_write_fuses`; `buf` is the caller's payload. -/
def minipro_write_fuses (handle : minipro_handle_t) (type length : Nat) (buf : List Nat) :
    Prog Unit := do
  write_fuses_switch handle type length buf
  msg_init type handle.device
  let m ← getMsg
  let m := m.set 2 (if type = 18 ∧ length = 4 then 2 else 1)
  let m := memcpy m 7 buf 0 length
  setMsg m
  let _ ← msg_send 18
  let _ ← msg_recv (7 + length)
  let m ← getMsg
  if (List.range length).map (fun i => buf.getD i 0)
      ≠ (List.range length).map (fun i => m.getD (7 + i) 0) then
    ERROR .VerificationFailure
  else
    pure ()

/-- The value `printf` shows with `%d` for a `char` holding the byte `b`. -/
def char_value (c : Constants) (b : Nat) : Int :=
  if c.char_signed ∧ 128 ≤ b then (b : Int) - 256 else (b : Int)

/-- Append a line to `stderr`. -/
def eprint (s : String) : Prog Unit := fun w => (.ok (), { w with stderr := w.stderr ++ [s] })

/-- The function `minipro_get_system_info`; `out` is the caller's record, returned as
the function leaves it.  The local array `buf` starts as 40 zero bytes. -/
def minipro_get_system_info (c : Constants) (_handle : minipro_handle_t)
    (out : minipro_system_info_t) : Prog minipro_system_info_t := do
  let buf := List.replicate 40 0
  let m ← getMsg
  let m := store m 0 (List.replicate 5 0x0)
  let m := m.set 0 (c.MP_GET_SYSTEM_INFO % 256)
  setMsg m
  let _ ← msg_send 5
  let buf ← msg_recv_into buf 40
  -- Protocol version
  let out := { out with protocol := buf.getD 1 0 }
  if ¬ (out.protocol = 1 ∨ out.protocol = 2) then
    ERROR .UnsupportedProtocolVersion
  -- Model
  let out := { out with protocol := buf.getD 6 0 }
  let out ←
    if out.protocol = c.MP_TL866A then
      pure { out with model_str := "TL866A" }
    else if out.protocol = c.MP_TL866CS then
      pure { out with model_str := "TL866CS" }
    else
      ERROR .UnknownDeviceModel
  -- Firmware
  let out := { out with firmware := load_int buf 4 2 .MP_LITTLE_ENDIAN }
  if out.firmware < c.MP_FIRMWARE_VERSION then
    eprint "Warning: firmware is too old\n"
  let a := char_value c (buf.getD 39 0)
  let b := char_value c (buf.getD 4 0)
  let d := char_value c (buf.getD 5 0)
  pure { out with firmware_str := toString a ++ "." ++ toString b ++ "." ++ toString d }

/-- The function `minipro_prepare_writing`.  The local array `buf` starts as 10 zero
bytes. -/
def minipro_prepare_writing (c : Constants) (handle : minipro_handle_t) : Prog Unit := do
  let buf := List.replicate 10 0
  msg_init c.MP_PREPARE_WRITING handle.device
  let m ← getMsg
  let m := format_int m 2 0x03 2 .MP_LITTLE_ENDIAN
  let m := m.set 2 (handle.device.write_unlock % 256)
  setMsg m
  let _ ← msg_send 15
  let _ ← msg_recv_into buf 10

/-! ## Sample values -/

/-- Sample values for the constants of `minipro.h`. -/
def sampleConstants : Constants :=
  { MP_REQUEST_STATUS1_MSG1 := 0x03, MP_REQUEST_STATUS1_MSG2 := 0xfe, MP_GET_CHIP_ID := 0x05,
    MP_GET_SYSTEM_INFO := 0x00, MP_PREPARE_WRITING := 0x20, MP_TL866A := 1, MP_TL866CS := 2,
    MP_FIRMWARE_VERSION := 0x023d, char_signed := true }

/-- A sample descriptor. -/
def sampleDevice : device_t :=
  { protocol_id := 0x31, variant := 0x41, data_memory_size := 0x1234, opts1 := 0xAABB,
    opts2 := 0xCCDD, opts3 := 0xEEFF, read_buffer_size := 4, write_buffer_size := 4,
    chip_id_bytes_count := 3, write_unlock := 0x77 }

/-- A handle on the sample descriptor. -/
def sampleHandle : minipro_handle_t := { device := sampleDevice }

/-- A state whose array `msg` is `n` bytes of `0x09`, with the given transport behaviour
and nothing transferred or printed yet. -/
def sampleWorld (n : Nat) (sendCounts : List Nat) (responses : List (List Nat)) : World :=
  { msg := List.replicate n 9, sendCounts := sendCounts, responses := responses,
    wire := [], stderr := [] }

/-- The big-endian integer of the `n` bytes `bytes[off .. off + n)`, in the words of the
specification: the sum over `i < n` of `bytes[off + i] * 256 ^ (n - 1 - i)`. -/
def big_endian_value (bytes : List Nat) (off n : Nat) : Nat :=
  Finset.sum (Finset.range n) fun i => bytes.getD (off + i) 0 * 256 ^ (n - 1 - i)

/-- A descriptor as `sampleDevice`, with a chip identifier of 4 bytes. -/
def sampleDevice4 : device_t := { sampleDevice with chip_id_bytes_count := 4 }

/-- A chip-identifier response of `5 + 4` bytes whose bytes 2..5 are `0xFF, 0, 0, 1`. -/
def chipIdResponseHigh : List Nat := [0xAA, 0xBB, 0xFF, 0x00, 0x00, 0x01, 0xCC, 0xDD, 0xEE]

/-- A chip-identifier response of `5 + 3` bytes whose bytes 2..4 are `0x1E, 0x95, 0x02`. -/
def chipIdResponse : List Nat := [0xAA, 0xBB, 0x1E, 0x95, 0x02, 0xCC, 0xDD, 0xEE]

/-- A 40-byte system-info response as `systemInfoResponse`, but with byte 4 equal to
`200`, a byte that is negative as a signed `char`. -/
def highMinorResponse : List Nat := [0, 1, 0, 0, 200, 0x02, 2] ++ List.replicate 32 0 ++ [3]

/-- A 32-byte status response: bytes 0..3 are `0x78, 0x56, 0x34, 0x12`, all others `0`. -/
def statusResponse : List Nat := [0x78, 0x56, 0x34, 0x12] ++ List.replicate 28 0

/-- A 32-byte status response whose byte 9 is `1`, the others as in `statusResponse`. -/
def overcurrentResponse : List Nat := [0x78, 0x56, 0x34, 0x12, 0, 0, 0, 0, 0, 1] ++ List.replicate 22 0

/-- The eleven bytes `msg_init` writes at `msg[0 .. 10]`, as `msg_init_run` shows. -/
def headerBytes (cmd : Nat) (device : device_t) : List Nat :=
  [cmd % 256, device.protocol_id % 256, device.variant % 256, 0,
   device.data_memory_size / 256 % 256, device.opts1 % 256, device.opts2 % 256,
   device.opts2 / 256 % 256, device.opts1 / 256 % 256, device.opts3 % 256,
   device.opts3 / 256 % 256]

/-- A 40-byte system-info response: byte 1 (protocol version) is `1`, bytes 4..5
(firmware) are `0x3d, 0x02`, byte 6 (model) is `2`, byte 39 is `3`, all others `0`. -/
def systemInfoResponse : List Nat := [0, 1, 0, 0, 0x3d, 0x02, 2] ++ List.replicate 32 0 ++ [3]

/-- A 40-byte system-info response as `systemInfoResponse`, but with the firmware bytes
4..5 equal to `0x3c, 0x02`: the firmware number `0x023c` is below `0x023d`. -/
def oldFirmwareResponse : List Nat := [0, 1, 0, 0, 0x3c, 0x02, 2] ++ List.replicate 32 0 ++ [3]

/-- A verification response of `minipro_write_fuses` for 4 fuse bytes: 7 bytes and then
the echo `[1, 2, 3, 4]`. -/
def fuseEcho : List Nat := [0, 0, 0, 0, 0, 0, 0, 1, 2, 3, 4]

/-- A verification response whose echo `[1, 2, 3, 5]` differs in the last byte. -/
def fuseEchoWrong : List Nat := [0, 0, 0, 0, 0, 0, 0, 1, 2, 3, 5]

/-- A record as the caller may pass it to `minipro_get_system_info`. -/
def emptyInfo : minipro_system_info_t :=
  { protocol := 0, model_str := "", firmware_str := "", firmware := 0 }

/-! ## Lemmas on buffers and sequencing -/

@[simp] theorem run_pure {α : Type} (a : α) (w : World) :
    (pure a : Prog α).run w = (.ok a, w) := rfl

@[simp] theorem run_bind {α β : Type} (p : Prog α) (f : α → Prog β) (w : World) :
    (p >>= f).run w =
      match p.run w with
      | (.ok a, w1) => (f a).run w1
      | (.error e, w1) => (.error e, w1) := rfl

@[simp] theorem run_getMsg (w : World) : getMsg.run w = (.ok w.msg, w) := rfl

@[simp] theorem run_setMsg (m : List Nat) (w : World) :
    (setMsg m).run w = (.ok (), { w with msg := m }) := rfl

@[simp] theorem run_ERROR {α : Type} (f : Fault) (w : World) :
    (ERROR f : Prog α).run w = (.error f, w) := rfl

@[simp] theorem store_nil (dst : List Nat) (off : Nat) : store dst off [] = dst := rfl

@[simp] theorem store_cons_succ (a : Nat) (l : List Nat) (n : Nat) (s : List Nat) :
    store (a :: l) (n + 1) s = a :: store l n s := by
  induction s generalizing a l n with
  | nil => rfl
  | cons b bs ih =>
    cases l with
    | nil => simp [store, ih]
    | cons x xs => simp [store, ih]

@[simp] theorem store_zero_cons (a : Nat) (l : List Nat) (b : Nat) (s : List Nat) :
    store (a :: l) 0 (b :: s) = b :: store l 0 s := by
  simp [store]

@[simp] theorem store_nil_dst (off : Nat) (s : List Nat) : store [] off s = [] := by
  induction s generalizing off with
  | nil => rfl
  | cons b bs ih => simp [store, ih]

@[simp] theorem length_store (l : List Nat) (n : Nat) (s : List Nat) :
    (store l n s).length = l.length := by
  induction s generalizing l n with
  | nil => rfl
  | cons b bs ih => simp [store, ih]

theorem store_zero_eq (s l : List Nat) (h : s.length ≤ l.length) :
    store l 0 s = s ++ l.drop s.length := by
  induction s generalizing l with
  | nil => simp
  | cons b bs ih =>
    cases l with
    | nil => simp at h
    | cons x xs =>
      simp only [List.length_cons, Nat.add_le_add_iff_right] at h
      simp [ih xs h]

theorem take_seven_add (a0 a1 a2 a3 a4 a5 a6 : Nat) (l : List Nat) (n : Nat) :
    List.take (7 + n) (a0 :: a1 :: a2 :: a3 :: a4 :: a5 :: a6 :: l) =
      a0 :: a1 :: a2 :: a3 :: a4 :: a5 :: a6 :: List.take n l := by
  rw [Nat.add_comm]
  rfl

theorem map_range_getElem?_getD (buf : List Nat) :
    ((List.range buf.length).map fun i => buf[i]?.getD 0) = buf := by
  apply List.ext_getElem
  · simp
  · intro i h1 h2
    simp at h1
    simp [h1]

theorem map_range_getD_add (l : List Nat) (k n : Nat) (h : k + n ≤ l.length) :
    ((List.range n).map fun i => l.getD (k + i) 0) = (l.drop k).take n := by
  apply List.ext_getElem
  · simp; omega
  · intro i h1 h2
    simp at h1
    have h3 : k + i < l.length := by omega
    simp [List.getD_eq_getElem?_getD, h3]

theorem map_range_getD (buf : List Nat) :
    ((List.range buf.length).map fun i => buf.getD i 0) = buf := by
  apply List.ext_getElem
  · simp
  · intro i h1 h2
    simp at h1
    simp [List.getD_eq_getElem?_getD, h1]

/-- The function `msg_init` always returns normally and changes nothing but the bytes
of `msg`, whose number it keeps. -/
theorem run_msg_init (cmd : Nat) (device : device_t) (w : World) :
    ∃ m, (msg_init cmd device).run w = (.ok (), { w with msg := m }) ∧
      m.length = w.msg.length := by
  refine ⟨_, rfl, ?_⟩
  simp [format_int]

theorem shiftRight_8_and_255 (n : Nat) : n >>> 8 &&& 0xFF = n / 256 % 256 := by
  rw [Nat.shiftRight_eq_div_pow]
  exact Nat.and_pow_two_sub_one_eq_mod (n / 2 ^ 8) 8

/-- The function `msg_init` overwrites `msg[0 .. 10]` with `headerBytes` and leaves the
rest of `msg` as it was. -/
theorem msg_init_run (cmd : Nat) (device : device_t) (w : World) (h : 11 ≤ w.msg.length) :
    (msg_init cmd device).run w =
      (.ok (), { w with msg := headerBytes cmd device ++ w.msg.drop 11 }) := by
  obtain ⟨msg, sc, rs, wire, err⟩ := w
  simp only at h
  rcases msg with _ | ⟨a0, _ | ⟨a1, _ | ⟨a2, _ | ⟨a3, _ | ⟨a4, _ | ⟨a5, _ | ⟨a6, _ | ⟨a7,
    _ | ⟨a8, _ | ⟨a9, _ | ⟨a10, r⟩⟩⟩⟩⟩⟩⟩⟩⟩⟩⟩
  all_goals try (simp at h; done)
  simp [msg_init, format_int, pack, headerBytes, List.range_succ, store, shiftRight_8_and_255]

theorem run_msg_send_ok (n : Nat) (w : World) (sc : List Nat) (hs : w.sendCounts = n :: sc) :
    (msg_send n).run w =
      (.ok n, { w with sendCounts := sc, wire := w.wire ++ [Event.out (w.msg.take n)] }) := by
  simp [Prog.run, msg_send, msg_transfer, hs]

/-- Whatever the transport reports, `msg_send` leaves the request on the wire. -/
theorem msg_send_state (n : Nat) (w : World) :
    ((msg_send n).run w).2 =
      { w with sendCounts := w.sendCounts.tail,
               wire := w.wire ++ [Event.out (w.msg.take n)] } := by
  simp only [Prog.run, msg_send, msg_transfer]
  split <;> rfl

/-- Discarding the result of the last transfer does not change the state it leaves. -/
theorem run_discard_state {α : Type} (p : Prog α) (w : World) :
    (match p.run w with
      | (.ok _, w1) => (pure () : Prog Unit).run w1
      | (.error e, w1) => (.error e, w1)).2 = (p.run w).2 := by
  split <;> simp_all

theorem run_msg_recv_into_short (buf : List Nat) (n : Nat) (w : World)
    (h : (w.responses.headD []).length ≠ n) :
    (msg_recv_into buf n).run w =
      (.error .IOFault,
        { w with responses := w.responses.tail, wire := w.wire ++ [Event.inp n] }) := by
  simp only [Prog.run, msg_recv_into, msg_transfer]
  rw [if_pos h]
  rfl

theorem run_msg_recv_short (n : Nat) (w : World)
    (h : (w.responses.headD []).length ≠ n) :
    (msg_recv n).run w =
      (.error .IOFault,
        { w with msg := store w.msg 0 ((w.responses.headD []).take n),
                 responses := w.responses.tail, wire := w.wire ++ [Event.inp n] }) := by
  simp only [Prog.run, msg_recv, msg_transfer]
  rw [if_pos h]

theorem run_msg_recv_into_ok (buf : List Nat) (n : Nat) (w : World) (resp : List Nat)
    (rest : List (List Nat)) (hr : w.responses = resp :: rest) (hlen : resp.length = n) :
    (msg_recv_into buf n).run w =
      (.ok (store buf 0 resp),
        { w with responses := rest, wire := w.wire ++ [Event.inp n] }) := by
  subst hlen
  simp [Prog.run, msg_recv_into, msg_transfer, hr, Except.map]

theorem run_msg_recv_ok (n : Nat) (w : World) (resp : List Nat)
    (rest : List (List Nat)) (hr : w.responses = resp :: rest) (hlen : resp.length = n) :
    (msg_recv n).run w =
      (.ok n, { w with msg := store w.msg 0 resp, responses := rest,
                       wire := w.wire ++ [Event.inp n] }) := by
  subst hlen
  simp [Prog.run, msg_recv, msg_transfer, hr]

theorem get_status_run (c : Constants) (handle : minipro_handle_t) (w : World)
    (sc : List Nat) (resp : List Nat) (rest : List (List Nat))
    (hs : w.sendCounts = 5 :: sc) (hr : w.responses = resp :: rest)
    (hlen : resp.length = 32) :
    ((minipro_get_status c handle).run w).1 =
      if resp.getD 9 0 ≠ 0 then .error .OvercurrentFault
      else .ok (load_int resp 0 2 .MP_LITTLE_ENDIAN) := by
  obtain ⟨m, hm, -⟩ := run_msg_init c.MP_REQUEST_STATUS1_MSG2 handle.device w
  have h32 : store (List.replicate 32 0) 0 resp = resp := by
    rw [store_zero_eq _ _ (by simp [hlen])]; simp [hlen]
  simp only [minipro_get_status, run_bind, hm]
  rw [run_msg_send_ok 5 _ sc (by simpa using hs)]
  simp only []
  rw [run_msg_recv_into_ok _ 32 _ resp rest (by simpa using hr) hlen]
  simp only [h32]
  split <;> simp_all

/-! ## get_status -/

/-- C1, as stated, fails: on the 32-byte response `statusResponse` (byte 9 is `0`, bytes
2..3 are `0x34, 0x12`, bytes 0..1 are `0x78, 0x56`) with both transfers complete,
`minipro_get_status` returns `0x5678`, not the integer `0x1234` of bytes 2 and 3. -/
theorem get_status_offset_2_counterexample :
    statusResponse.length = 32 ∧ statusResponse.getD 9 0 = 0 ∧
    ((minipro_get_status sampleConstants sampleHandle).run
        (sampleWorld 64 [5] [statusResponse])).1 = .ok 0x5678 ∧
    ((minipro_get_status sampleConstants sampleHandle).run
        (sampleWorld 64 [5] [statusResponse])).1
      ≠ .ok (statusResponse.getD 2 0 + 256 * statusResponse.getD 3 0) :=
  ⟨by decide, by decide, rfl, fun h => absurd (Except.ok.inj h) (by decide)⟩

/-- C1, amended: for every 32-byte response whose byte 9 is `0`, with both transfers
complete, `minipro_get_status` returns the little-endian 16-bit integer of response
bytes 0 and 1, `resp[0] + 256 * resp[1]` (the `2` in `load_int(buf, 2, ...)` is the
width). -/
theorem get_status_returns_bytes_0_1 (c : Constants) (handle : minipro_handle_t) (w : World)
    (sc : List Nat) (resp : List Nat) (rest : List (List Nat))
    (hs : w.sendCounts = 5 :: sc) (hr : w.responses = resp :: rest)
    (hlen : resp.length = 32) (h9 : resp.getD 9 0 = 0) :
    ((minipro_get_status c handle).run w).1 = .ok (resp.getD 0 0 + 256 * resp.getD 1 0) := by
  rw [get_status_run c handle w sc resp rest hs hr hlen, if_neg (not_not.mpr h9)]
  simp [load_int, List.range_succ, Nat.mul_comm]

/-- Witness for `get_status_returns_bytes_0_1`: `statusResponse` gives `0x5678`. -/
theorem get_status_returns_bytes_0_1_witness :
    ((minipro_get_status sampleConstants sampleHandle).run
        (sampleWorld 64 [5] [statusResponse])).1 = .ok (0x78 + 256 * 0x56) :=
  get_status_returns_bytes_0_1 sampleConstants sampleHandle
    (sampleWorld 64 [5] [statusResponse]) [] statusResponse [] rfl rfl (by decide) (by decide)

/-- C3: with both transfers complete and a 32-byte response, `minipro_get_status` fails
with the overcurrent fault exactly when response byte 9 is non-zero; when byte 9 is
non-zero no status value is returned; and two responses with the same byte 9 agree on
whether the overcurrent fault is raised, whatever their other bytes. -/
theorem get_status_overcurrent_iff (c : Constants) (handle : minipro_handle_t) (w : World)
    (sc : List Nat) (resp : List Nat) (rest : List (List Nat))
    (hs : w.sendCounts = 5 :: sc) (hr : w.responses = resp :: rest)
    (hlen : resp.length = 32) :
    (((minipro_get_status c handle).run w).1 = .error .OvercurrentFault ↔ resp.getD 9 0 ≠ 0) ∧
    (resp.getD 9 0 ≠ 0 → ∀ status, ((minipro_get_status c handle).run w).1 ≠ .ok status) ∧
    (∀ resp2 : List Nat, resp2.length = 32 → resp2.getD 9 0 = resp.getD 9 0 →
      (((minipro_get_status c handle).run { w with responses := resp2 :: rest }).1
          = .error .OvercurrentFault ↔
        ((minipro_get_status c handle).run w).1 = .error .OvercurrentFault)) := by
  have key : ∀ (w1 : World) (r : List Nat), w1.sendCounts = 5 :: sc →
      w1.responses = r :: rest → r.length = 32 →
      (((minipro_get_status c handle).run w1).1 = .error .OvercurrentFault ↔
        r.getD 9 0 ≠ 0) := by
    intro w1 r h1 h2 h3
    rw [get_status_run c handle w1 sc r rest h1 h2 h3]
    split <;> simp_all
  refine ⟨key w resp hs hr hlen, ?_, ?_⟩
  · intro h9 status
    rw [get_status_run c handle w sc resp rest hs hr hlen, if_pos h9]
    simp
  · intro resp2 hlen2 h99
    rw [key w resp hs hr hlen, key _ resp2 (by simpa using hs) rfl hlen2, h99]

/-- Witness for `get_status_overcurrent_iff`: on `overcurrentResponse`, whose byte 9 is
`1`, the operation fails with the overcurrent fault. -/
theorem get_status_overcurrent_iff_witness :
    ((minipro_get_status sampleConstants sampleHandle).run
        (sampleWorld 64 [5] [overcurrentResponse])).1 = .error .OvercurrentFault :=
  (get_status_overcurrent_iff sampleConstants sampleHandle
    (sampleWorld 64 [5] [overcurrentResponse]) [] overcurrentResponse [] rfl rfl
    (by decide)).1.mpr (by decide)

/-! ## msg_init -/

/-- C5, as stated, fails: for the sample descriptor (`opts1 = 0xAABB`, `opts2 = 0xCCDD`)
byte 8 after `msg_init` is `0xAA`, the high byte of `opts1`, not its low byte `0xBB`, and
bytes 5..8 are `[0xBB, 0xDD, 0xCC, 0xAA]`. -/
theorem msg_init_byte_8_counterexample :
    ((msg_init 0x03 sampleDevice).run (sampleWorld 64 [] [])).2.msg.getD 8 0 = 0xAA ∧
    ((msg_init 0x03 sampleDevice).run (sampleWorld 64 [] [])).2.msg.getD 8 0
      ≠ sampleDevice.opts1 % 256 ∧
    ((((msg_init 0x03 sampleDevice).run (sampleWorld 64 [] [])).2.msg.drop 5).take 4
      ≠ [sampleDevice.opts1 % 256, sampleDevice.opts2 % 256, sampleDevice.opts2 / 256 % 256,
          sampleDevice.opts1 % 256]) := by
  decide

/-- C5, amended: for every opcode and descriptor, after `msg_init` on the shared buffer
byte 8 equals the high byte of `opts1` (bits 8..15, the old byte 6), so that bytes 5..8
are `[opts1_lo, opts2_lo, opts2_hi, opts1_hi]`. -/
theorem msg_init_byte_8 (cmd : Nat) (device : device_t) (w : World)
    (h : 11 ≤ w.msg.length) :
    ((msg_init cmd device).run w).2.msg.getD 8 0 = device.opts1 / 256 % 256 ∧
    (((msg_init cmd device).run w).2.msg.drop 5).take 4 =
      [device.opts1 % 256, device.opts2 % 256, device.opts2 / 256 % 256,
        device.opts1 / 256 % 256] := by
  rw [msg_init_run cmd device w h]
  simp [headerBytes]

/-- Witness for `msg_init_byte_8`: the sample descriptor on a 64-byte `msg`. -/
theorem msg_init_byte_8_witness :
    ((msg_init 0x03 sampleDevice).run (sampleWorld 64 [] [])).2.msg.getD 8 0 = 0xAA ∧
    (((msg_init 0x03 sampleDevice).run (sampleWorld 64 [] [])).2.msg.drop 5).take 4 =
      [0xBB, 0xDD, 0xCC, 0xAA] :=
  msg_init_byte_8 0x03 sampleDevice (sampleWorld 64 [] []) (by decide)

/-- C6: for every opcode and descriptor, `msg_init` returns normally and leaves in the
shared buffer: byte 0 = the opcode, byte 1 = `protocol_id`, byte 2 = `variant` (each as
the byte it is stored in, so the value itself when it is below 256), byte 3 = `0x00`,
byte 4 = `(data_memory_size >> 8) & 0xFF`, byte 5 = low byte of `opts1`, bytes 6..7 =
`opts2` little-endian, bytes 9..10 = `opts3` little-endian. -/
theorem msg_init_header (cmd : Nat) (device : device_t) (w : World)
    (h : 11 ≤ w.msg.length) :
    ((msg_init cmd device).run w).1 = .ok () ∧
    ((msg_init cmd device).run w).2.msg.getD 0 0 = cmd % 256 ∧
    ((msg_init cmd device).run w).2.msg.getD 1 0 = device.protocol_id % 256 ∧
    ((msg_init cmd device).run w).2.msg.getD 2 0 = device.variant % 256 ∧
    ((msg_init cmd device).run w).2.msg.getD 3 0 = 0x00 ∧
    ((msg_init cmd device).run w).2.msg.getD 4 0 = (device.data_memory_size >>> 8) &&& 0xFF ∧
    ((msg_init cmd device).run w).2.msg.getD 5 0 = device.opts1 % 256 ∧
    ((msg_init cmd device).run w).2.msg.getD 6 0 = device.opts2 % 256 ∧
    ((msg_init cmd device).run w).2.msg.getD 7 0 = device.opts2 / 256 % 256 ∧
    ((msg_init cmd device).run w).2.msg.getD 9 0 = device.opts3 % 256 ∧
    ((msg_init cmd device).run w).2.msg.getD 10 0 = device.opts3 / 256 % 256 ∧
    (cmd < 256 → ((msg_init cmd device).run w).2.msg.getD 0 0 = cmd) ∧
    (device.protocol_id < 256 →
      ((msg_init cmd device).run w).2.msg.getD 1 0 = device.protocol_id) ∧
    (device.variant < 256 →
      ((msg_init cmd device).run w).2.msg.getD 2 0 = device.variant) := by
  rw [msg_init_run cmd device w h]
  rw [shiftRight_8_and_255]
  refine ⟨rfl, rfl, rfl, rfl, rfl, rfl, rfl, rfl, rfl, rfl, rfl, ?_, ?_, ?_⟩
  · intro hc; exact Nat.mod_eq_of_lt hc
  · intro hc; exact Nat.mod_eq_of_lt hc
  · intro hc; exact Nat.mod_eq_of_lt hc

/-- Witness for `msg_init_header`: the header of the sample descriptor with opcode
`0x03` on a 64-byte `msg`. -/
theorem msg_init_header_witness :
    (((msg_init 0x03 sampleDevice).run (sampleWorld 64 [] [])).2.msg.take 11) =
      [0x03, 0x31, 0x41, 0x00, 0x12, 0xBB, 0xDD, 0xCC, 0xAA, 0xFF, 0xEE] ∧
    ((msg_init 0x03 sampleDevice).run (sampleWorld 64 [] [])).2.msg.getD 1 0 = 0x31 :=
  ⟨by decide,
   (msg_init_header 0x03 sampleDevice (sampleWorld 64 [] []) (by decide)).2.2.2.2.2.2.2.2.2.2.2.2.1
     (by decide)⟩

/-! ## get_system_info -/

/-- What `minipro_get_system_info` does after two complete transfers, as a function of
the 40-byte response. -/
theorem get_system_info_run (c : Constants) (handle : minipro_handle_t)
    (out : minipro_system_info_t) (w : World) (sc : List Nat) (resp : List Nat)
    (rest : List (List Nat)) (hs : w.sendCounts = 5 :: sc) (hr : w.responses = resp :: rest)
    (hlen : resp.length = 40) :
    ∃ w2 : World, w2.stderr = w.stderr ∧
      (minipro_get_system_info c handle out).run w =
        if ¬ (resp.getD 1 0 = 1 ∨ resp.getD 1 0 = 2) then
          (.error .UnsupportedProtocolVersion, w2)
        else if resp.getD 6 0 = c.MP_TL866A ∨ resp.getD 6 0 = c.MP_TL866CS then
          (.ok { protocol := resp.getD 6 0,
                 model_str := if resp.getD 6 0 = c.MP_TL866A then "TL866A" else "TL866CS",
                 firmware_str := toString (char_value c (resp.getD 39 0)) ++ "." ++
                   toString (char_value c (resp.getD 4 0)) ++ "." ++
                   toString (char_value c (resp.getD 5 0)),
                 firmware := load_int resp 4 2 .MP_LITTLE_ENDIAN },
           { w2 with stderr :=
              if load_int resp 4 2 .MP_LITTLE_ENDIAN < c.MP_FIRMWARE_VERSION
              then w2.stderr ++ ["Warning: firmware is too old\n"] else w2.stderr })
        else (.error .UnknownDeviceModel, w2) := by
  have h40 : store (List.replicate 40 0) 0 resp = resp := by
    rw [store_zero_eq _ _ (by simp [hlen])]; simp [hlen]
  refine ⟨{ w with
      msg := (store w.msg 0 (List.replicate 5 0)).set 0 (c.MP_GET_SYSTEM_INFO % 256),
      sendCounts := sc, responses := rest,
      wire := w.wire ++ [Event.out (List.take 5
        ((store w.msg 0 (List.replicate 5 0)).set 0 (c.MP_GET_SYSTEM_INFO % 256)))] ++
        [Event.inp 40] }, rfl, ?_⟩
  simp only [minipro_get_system_info, run_bind, run_getMsg, run_setMsg]
  rw [run_msg_send_ok 5 _ sc (by simpa using hs)]
  simp only []
  rw [run_msg_recv_into_ok _ 40 _ resp rest (by simpa using hr) hlen]
  simp only [h40]
  generalize resp.getD 1 0 = b1
  generalize resp.getD 6 0 = b6
  generalize load_int resp 4 2 .MP_LITTLE_ENDIAN = fw
  split_ifs <;> first | rfl | (exfalso; tauto)

/-- Whenever `minipro_get_system_info` succeeds on a 40-byte response, the field
`protocol` of the record it leaves is response byte 6: the second `switch` assigns
`buf[6]` to `out->protocol`, over the value `buf[1]` stored by the first. -/
theorem get_system_info_protocol_eq_byte_6 (c : Constants) (handle : minipro_handle_t)
    (out : minipro_system_info_t) (w : World) (sc : List Nat) (resp : List Nat)
    (rest : List (List Nat)) (hs : w.sendCounts = 5 :: sc) (hr : w.responses = resp :: rest)
    (hlen : resp.length = 40) (info : minipro_system_info_t)
    (hok : ((minipro_get_system_info c handle out).run w).1 = .ok info) :
    info.protocol = resp.getD 6 0 := by
  obtain ⟨w2, -, hrun⟩ := get_system_info_run c handle out w sc resp rest hs hr hlen
  rw [hrun] at hok
  split_ifs at hok <;> cases hok <;> rfl

/-- C4 does not hold of the code: on `systemInfoResponse`, a valid 40-byte response whose
byte 1 (protocol version) is `1` and whose byte 6 (model) is `MP_TL866CS = 2`,
`minipro_get_system_info` succeeds and leaves `protocol = 2`, the model byte, in the
record. -/
theorem get_system_info_protocol_overwritten :
    systemInfoResponse.length = 40 ∧ systemInfoResponse.getD 1 0 = 1 ∧
    ((minipro_get_system_info sampleConstants sampleHandle emptyInfo).run
        (sampleWorld 64 [5] [systemInfoResponse])).1 =
      .ok { protocol := 2, model_str := "TL866CS", firmware_str := "3.61.2",
            firmware := 0x023d } :=
  ⟨by decide, by decide, rfl⟩

/-- C7: with both transfers complete and a 40-byte response, `minipro_get_system_info`
fails with the protocol-version fault exactly when response byte 1 is neither 1 nor 2,
fails with the unknown-device fault exactly when byte 1 is 1 or 2 and byte 6 is neither
`MP_TL866A` nor `MP_TL866CS`, and succeeds in every other case, whatever bytes 4, 5 and
39 are; with a firmware number below `MP_FIRMWARE_VERSION` it still succeeds and only
writes the warning to `stderr`. -/
theorem get_system_info_fails_iff (c : Constants) (handle : minipro_handle_t)
    (out : minipro_system_info_t) (w : World) (sc : List Nat) (resp : List Nat)
    (rest : List (List Nat)) (hs : w.sendCounts = 5 :: sc) (hr : w.responses = resp :: rest)
    (hlen : resp.length = 40) :
    (((minipro_get_system_info c handle out).run w).1 = .error .UnsupportedProtocolVersion ↔
      ¬ (resp.getD 1 0 = 1 ∨ resp.getD 1 0 = 2)) ∧
    (((minipro_get_system_info c handle out).run w).1 = .error .UnknownDeviceModel ↔
      (resp.getD 1 0 = 1 ∨ resp.getD 1 0 = 2) ∧
        ¬ (resp.getD 6 0 = c.MP_TL866A ∨ resp.getD 6 0 = c.MP_TL866CS)) ∧
    ((∃ e, ((minipro_get_system_info c handle out).run w).1 = .error e) ↔
      ¬ (resp.getD 1 0 = 1 ∨ resp.getD 1 0 = 2) ∨
        ¬ (resp.getD 6 0 = c.MP_TL866A ∨ resp.getD 6 0 = c.MP_TL866CS)) ∧
    ((∃ info, ((minipro_get_system_info c handle out).run w).1 = .ok info) ↔
      (resp.getD 1 0 = 1 ∨ resp.getD 1 0 = 2) ∧
        (resp.getD 6 0 = c.MP_TL866A ∨ resp.getD 6 0 = c.MP_TL866CS)) ∧
    ((resp.getD 1 0 = 1 ∨ resp.getD 1 0 = 2) →
      (resp.getD 6 0 = c.MP_TL866A ∨ resp.getD 6 0 = c.MP_TL866CS) →
      load_int resp 4 2 .MP_LITTLE_ENDIAN < c.MP_FIRMWARE_VERSION →
      (∃ info, ((minipro_get_system_info c handle out).run w).1 = .ok info) ∧
        ((minipro_get_system_info c handle out).run w).2.stderr =
          w.stderr ++ ["Warning: firmware is too old\n"]) := by
  obtain ⟨w2, hst, hrun⟩ := get_system_info_run c handle out w sc resp rest hs hr hlen
  rw [hrun]
  generalize resp.getD 1 0 = b1
  generalize resp.getD 6 0 = b6
  by_cases h1 : b1 = 1 ∨ b1 = 2
  · rw [if_neg (not_not.mpr h1)]
    by_cases h6 : b6 = c.MP_TL866A ∨ b6 = c.MP_TL866CS
    · rw [if_pos h6]
      simp [h1, h6, hst]
    · rw [if_neg h6]
      simp [h1, h6]
  · rw [if_pos h1]
    simp [h1]

/-- Witness for `get_system_info_fails_iff`: on `oldFirmwareResponse` (valid bytes 1 and
6, firmware `0x023c` below `MP_FIRMWARE_VERSION = 0x023d`) the operation succeeds and
the warning is the only line on `stderr`. -/
theorem get_system_info_fails_iff_witness :
    (∃ info, ((minipro_get_system_info sampleConstants sampleHandle emptyInfo).run
        (sampleWorld 64 [5] [oldFirmwareResponse])).1 = .ok info) ∧
    ((minipro_get_system_info sampleConstants sampleHandle emptyInfo).run
        (sampleWorld 64 [5] [oldFirmwareResponse])).2.stderr =
      [] ++ ["Warning: firmware is too old\n"] :=
  (get_system_info_fails_iff sampleConstants sampleHandle emptyInfo
    (sampleWorld 64 [5] [oldFirmwareResponse]) [] oldFirmwareResponse [] rfl rfl
    (by decide)).2.2.2.2 (by decide) (by decide) (by decide)

/-! ## write_block and read_block -/

/-- The wire after `minipro_write_block`: one OUT frame, header and payload. -/
theorem write_block_wire (handle : minipro_handle_t) (type addr : Nat) (buf : List Nat)
    (w : World) (hbuf : buf.length = handle.device.write_buffer_size)
    (hcap : 7 + handle.device.write_buffer_size ≤ w.msg.length) :
    ((minipro_write_block handle type addr buf).run w).2.wire =
      w.wire ++ [Event.out ([type % 256, handle.device.protocol_id % 256,
        handle.device.write_buffer_size % 256, handle.device.write_buffer_size / 256 % 256,
        addr % 256, addr / 256 % 256, addr / 65536 % 256] ++ buf)] := by
  obtain ⟨⟨pid, var, dms, o1, o2, o3, rbs, wbs, cnt, wu⟩⟩ := handle
  obtain ⟨msg, sc, rs, wire, err⟩ := w
  simp only at hbuf hcap
  subst hbuf
  rcases msg with _ | ⟨a0, _ | ⟨a1, _ | ⟨a2, _ | ⟨a3, _ | ⟨a4, _ | ⟨a5, _ | ⟨a6, r⟩⟩⟩⟩⟩⟩⟩
  all_goals try (simp at hcap <;> omega)
  have hr : buf.length ≤ r.length := by simp at hcap; omega
  simp only [minipro_write_block, msg_init, run_bind, run_getMsg, run_setMsg]
  rw [run_discard_state, msg_send_state]
  simp only [format_int, pack, List.range_succ, store, memcpy, List.getD_eq_getElem?_getD,
    Nat.zero_add, map_range_getElem?_getD]
  simp only [List.range_zero, List.map_nil, List.nil_append, List.map_cons, List.cons_append,
    store, List.set_cons_zero, List.set_cons_succ, store_cons_succ, pow_zero, pow_one,
    Nat.div_one, List.length_cons, Nat.reduceAdd, Nat.reducePow, zero_add, List.getElem?_cons_succ,
    List.getElem?_cons_zero, Option.getD_some, take_seven_add]
  rw [store_zero_eq _ _ (by simpa using hr)]
  simp

/-- C9: for every type, address, descriptor and payload of `write_buffer_size` bytes
(that fits in `msg` behind the 7 header bytes), `minipro_write_block` requests exactly
one transfer, an OUT transfer of the frame `[type mod 256, protocol_id, wbs_lo, wbs_hi,
addr bits 0-7, addr bits 8-15, addr bits 16-23]` followed by the payload unchanged; the
frame has `7 + write_buffer_size` bytes, does not depend on what `msg` held before, and
no IN transfer is requested.  No address is rejected: the call returns normally
whenever the transport reports the whole frame as transferred. -/
theorem write_block_frame (handle : minipro_handle_t) (type addr : Nat) (buf : List Nat)
    (w : World) (hbuf : buf.length = handle.device.write_buffer_size)
    (hcap : 7 + handle.device.write_buffer_size ≤ w.msg.length) :
    ((minipro_write_block handle type addr buf).run w).2.wire =
      w.wire ++ [Event.out ([type % 256, handle.device.protocol_id % 256,
        handle.device.write_buffer_size % 256, handle.device.write_buffer_size / 256 % 256,
        addr % 256, addr / 256 % 256, addr / 65536 % 256] ++ buf)] ∧
    ([type % 256, handle.device.protocol_id % 256,
        handle.device.write_buffer_size % 256, handle.device.write_buffer_size / 256 % 256,
        addr % 256, addr / 256 % 256, addr / 65536 % 256] ++ buf).length =
      7 + handle.device.write_buffer_size ∧
    (w.sendCounts.headD 0 = 7 + handle.device.write_buffer_size →
      ((minipro_write_block handle type addr buf).run w).1 = .ok ()) := by
  have hres : w.sendCounts.headD 0 = 7 + handle.device.write_buffer_size →
      ((minipro_write_block handle type addr buf).run w).1 = .ok () := by
    intro hcount
    obtain ⟨m, hm, -⟩ := run_msg_init type handle.device w
    have hsc : w.sendCounts = (7 + handle.device.write_buffer_size) :: w.sendCounts.tail := by
      cases hw : w.sendCounts with
      | nil => rw [hw] at hcount; simp at hcount; omega
      | cons x xs => rw [hw] at hcount; simp at hcount; simp [hcount]
    simp only [minipro_write_block, run_bind, hm, run_getMsg, run_setMsg]
    rw [run_msg_send_ok _ _ w.sendCounts.tail (by simpa using hsc)]
    rfl
  exact ⟨write_block_wire handle type addr buf w hbuf hcap, by simp; omega, hres⟩

/-- Witness for `write_block_frame`: type `0x130`, address `0x01020304` and the payload
`[1, 2, 3, 4]` on the sample descriptor (write buffer of 4 bytes) give the frame
`[0x30, 0x31, 4, 0, 0x04, 0x03, 0x02, 1, 2, 3, 4]`. -/
theorem write_block_frame_witness :
    ((minipro_write_block sampleHandle 0x130 0x01020304 [1, 2, 3, 4]).run
        (sampleWorld 64 [] [])).2.wire =
      [] ++ [Event.out ([0x30, 0x31, 4, 0, 0x04, 0x03, 0x02] ++ [1, 2, 3, 4])] :=
  (write_block_frame sampleHandle 0x130 0x01020304 [1, 2, 3, 4] (sampleWorld 64 [] [])
    (by decide) (by decide)).1

/-- C10: for every type, address and descriptor, with `msg` of at least 18 bytes, both
transfers complete and a caller buffer of at least `read_buffer_size` bytes,
`minipro_read_block` requests one OUT transfer of an 18-byte frame whose bytes 0..6 are
`[type mod 256, protocol_id, rbs_lo, rbs_hi, addr bits 0-7, 8-15, 16-23]` (bytes 7..10
are what `msg_init` left, bytes 11..17 what `msg` held before), then one IN transfer of
`read_buffer_size` bytes, and hands back the caller's buffer with exactly the received
bytes, in order, in its first `read_buffer_size` places. -/
theorem read_block_frame_and_block (handle : minipro_handle_t) (type addr : Nat)
    (buf : List Nat) (w : World) (sc : List Nat) (resp : List Nat) (rest : List (List Nat))
    (hcap : 18 ≤ w.msg.length) (hs : w.sendCounts = 18 :: sc)
    (hr : w.responses = resp :: rest) (hlen : resp.length = handle.device.read_buffer_size)
    (hbuf : handle.device.read_buffer_size ≤ buf.length) :
    ((minipro_read_block handle type addr buf).run w).1 =
      .ok (resp ++ buf.drop handle.device.read_buffer_size) ∧
    ((minipro_read_block handle type addr buf).run w).2.wire =
      w.wire ++ [Event.out ([type % 256, handle.device.protocol_id % 256,
          handle.device.read_buffer_size % 256, handle.device.read_buffer_size / 256 % 256,
          addr % 256, addr / 256 % 256, addr / 65536 % 256,
          handle.device.opts2 / 256 % 256, handle.device.opts1 / 256 % 256,
          handle.device.opts3 % 256, handle.device.opts3 / 256 % 256] ++
          (w.msg.drop 11).take 7),
        Event.inp handle.device.read_buffer_size] ∧
    ([type % 256, handle.device.protocol_id % 256,
          handle.device.read_buffer_size % 256, handle.device.read_buffer_size / 256 % 256,
          addr % 256, addr / 256 % 256, addr / 65536 % 256,
          handle.device.opts2 / 256 % 256, handle.device.opts1 / 256 % 256,
          handle.device.opts3 % 256, handle.device.opts3 / 256 % 256] ++
          (w.msg.drop 11).take 7).length = 18 := by
  have h11 : 11 ≤ w.msg.length := by omega
  have hstore : store buf 0 resp = resp ++ buf.drop handle.device.read_buffer_size := by
    rw [store_zero_eq _ _ (by omega), hlen]
  simp only [minipro_read_block, run_bind, msg_init_run _ _ _ h11, run_getMsg, run_setMsg]
  rw [run_msg_send_ok 18 _ sc (by simpa using hs)]
  simp only []
  rw [run_msg_recv_into_ok _ _ _ resp rest (by simpa using hr) hlen]
  refine ⟨by rw [hstore], ?_, by simp; omega⟩
  simp [headerBytes, format_int, pack, List.range_succ, store, List.take_append_eq_append_take]

/-- Witness for `read_block_frame_and_block`: on the sample descriptor (read buffer of
4 bytes) the response `[1, 2, 3, 4]` is handed back in the first 4 places of the
caller's 6-byte buffer. -/
theorem read_block_frame_and_block_witness :
    ((minipro_read_block sampleHandle 0x130 0x01020304 [9, 9, 9, 9, 9, 9]).run
        (sampleWorld 64 [18] [[1, 2, 3, 4]])).1 =
      .ok ([1, 2, 3, 4] ++ List.drop 4 [9, 9, 9, 9, 9, 9]) :=
  (read_block_frame_and_block sampleHandle 0x130 0x01020304 [9, 9, 9, 9, 9, 9]
    (sampleWorld 64 [18] [[1, 2, 3, 4]]) [] [1, 2, 3, 4] [] (by decide) rfl rfl
    (by decide) (by decide)).1

/-! ## write_fuses -/

/-- With its transfer complete, the `switch` of `minipro_write_fuses` returns normally,
consumes the count of its transfer (if the family has one) and no response, and keeps
the size of `msg`. -/
theorem write_fuses_switch_run (handle : minipro_handle_t) (type length : Nat)
    (buf : List Nat) (w : World) (sc : List Nat)
    (hs : w.sendCounts =
      (if type &&& 0xf0 = 0x10 then [64] else if type &&& 0xf0 = 0x40 then [10] else [])
        ++ sc) :
    ∃ w1 : World, (write_fuses_switch handle type length buf).run w = (.ok (), w1) ∧
      w1.msg.length = w.msg.length ∧ w1.sendCounts = sc ∧ w1.responses = w.responses := by
  by_cases h1 : type &&& 0xf0 = 0x10
  · rw [if_pos h1] at hs
    rw [write_fuses_switch, if_pos h1]
    obtain ⟨m, hm, hml⟩ := run_msg_init (type + 1) handle.device w
    simp only [run_bind, hm, run_getMsg, run_setMsg]
    rw [run_msg_send_ok 64 _ sc (by simpa using hs)]
    exact ⟨_, rfl, by simp [memcpy, hml], rfl, rfl⟩
  · rw [if_neg h1] at hs
    rw [write_fuses_switch, if_neg h1]
    by_cases h2 : type &&& 0xf0 = 0x40
    · rw [if_pos h2] at hs
      rw [if_pos h2]
      obtain ⟨m, hm, hml⟩ := run_msg_init (type - 1) handle.device w
      simp only [run_bind, hm, run_getMsg, run_setMsg]
      rw [run_msg_send_ok 10 _ sc (by simpa using hs)]
      exact ⟨_, rfl, by simp [memcpy, hml], rfl, rfl⟩
    · rw [if_neg h2] at hs
      rw [if_neg h2]
      exact ⟨w, rfl, rfl, by simpa using hs, rfl⟩

/-- C2: for every type, length and payload of `length` bytes (with `7 + length` bytes
fitting in `msg`), when all transfers complete, `minipro_write_fuses` succeeds if and
only if bytes `[7, 7 + length)` of the response to the verification request equal the
payload, and on any difference it fails with the verification fault. -/
theorem write_fuses_succeeds_iff (handle : minipro_handle_t) (type length : Nat)
    (buf : List Nat) (w : World) (sc : List Nat) (resp : List Nat) (rest : List (List Nat))
    (hbuf : buf.length = length) (hcap : 7 + length ≤ w.msg.length)
    (hs : w.sendCounts =
      (if type &&& 0xf0 = 0x10 then [64] else if type &&& 0xf0 = 0x40 then [10] else [])
        ++ 18 :: sc)
    (hr : w.responses = resp :: rest) (hlen : resp.length = 7 + length) :
    (((minipro_write_fuses handle type length buf).run w).1 = .ok () ↔
      (resp.drop 7).take length = buf) ∧
    ((resp.drop 7).take length ≠ buf →
      ((minipro_write_fuses handle type length buf).run w).1 = .error .VerificationFailure) := by
  obtain ⟨w1, hw1, hl1, hs1, hr1⟩ := write_fuses_switch_run handle type length buf w _ hs
  obtain ⟨m, hm, hml⟩ := run_msg_init type handle.device w1
  have hbufmap : ((List.range length).map fun i => buf.getD i 0) = buf := by
    rw [← hbuf]; exact map_range_getD buf
  simp only [minipro_write_fuses, run_bind, hw1, hm, run_getMsg, run_setMsg]
  rw [run_msg_send_ok 18 _ sc (by simpa using hs1)]
  simp only []
  rw [run_msg_recv_ok (7 + length) _ resp rest (by simpa [hr1] using hr) hlen]
  simp only []
  rw [store_zero_eq _ _ (by simp [memcpy, hml, hl1, hlen]; omega)]
  rw [map_range_getD_add _ 7 length (by simp [hlen]), hbufmap]
  rw [List.drop_append_of_le_length (by omega)]
  rw [List.take_append_of_le_length (by simp [hlen])]
  by_cases h : buf = (resp.drop 7).take length
  · rw [if_neg (not_not.mpr h)]
    exact ⟨⟨fun _ => h.symm, fun _ => rfl⟩, fun h2 => absurd h.symm h2⟩
  · rw [if_pos h]
    refine ⟨⟨fun h2 => ?_, fun h2 => absurd h2.symm h⟩, fun _ => rfl⟩
    simp [Prog.run, ERROR] at h2

/-- Witness for `write_fuses_succeeds_iff`: type `0x12`, payload `[1, 2, 3, 4]`; with the
echo `fuseEcho` the operation succeeds, with `fuseEchoWrong` it fails with the
verification fault. -/
theorem write_fuses_succeeds_iff_witness :
    ((minipro_write_fuses sampleHandle 0x12 4 [1, 2, 3, 4]).run
        (sampleWorld 80 [64, 18] [fuseEcho])).1 = .ok () ∧
    ((minipro_write_fuses sampleHandle 0x12 4 [1, 2, 3, 4]).run
        (sampleWorld 80 [64, 18] [fuseEchoWrong])).1 = .error .VerificationFailure :=
  ⟨(write_fuses_succeeds_iff sampleHandle 0x12 4 [1, 2, 3, 4]
      (sampleWorld 80 [64, 18] [fuseEcho]) [] fuseEcho [] (by decide) (by decide)
      (by decide) rfl (by decide)).1.mpr (by decide),
   (write_fuses_succeeds_iff sampleHandle 0x12 4 [1, 2, 3, 4]
      (sampleWorld 80 [64, 18] [fuseEchoWrong]) [] fuseEchoWrong [] (by decide) (by decide)
      (by decide) rfl (by decide)).2 (by decide)⟩

/-! ## Short transfers -/

theorem msg_transfer_out_iff (buf : List Nat) (length : Nat) (w : World) :
    ((msg_transfer buf length .LIBUSB_ENDPOINT_OUT w).1 = .ok length ↔
      w.sendCounts.headD 0 = length) ∧
    (w.sendCounts.headD 0 ≠ length →
      (msg_transfer buf length .LIBUSB_ENDPOINT_OUT w).1 = .error .IOFault) := by
  simp only [msg_transfer]
  by_cases h : w.sendCounts.headD 0 = length
  · rw [if_neg (not_not.mpr h)]
    exact ⟨⟨fun _ => h, fun _ => by rw [h]⟩, fun h2 => absurd h h2⟩
  · rw [if_pos h]
    exact ⟨⟨fun h2 => (nomatch h2), fun h2 => absurd h2 h⟩, fun _ => rfl⟩

theorem msg_transfer_in_iff (buf : List Nat) (length : Nat) (w : World) :
    ((msg_transfer buf length .LIBUSB_ENDPOINT_IN w).1 = .ok length ↔
      (w.responses.headD []).length = length) ∧
    ((w.responses.headD []).length ≠ length →
      (msg_transfer buf length .LIBUSB_ENDPOINT_IN w).1 = .error .IOFault) := by
  simp only [msg_transfer]
  by_cases h : (w.responses.headD []).length = length
  · rw [if_neg (not_not.mpr h)]
    exact ⟨⟨fun _ => h, fun _ => by rw [h]⟩, fun h2 => absurd h h2⟩
  · rw [if_pos h]
    exact ⟨⟨fun h2 => (nomatch h2), fun h2 => absurd h2 h⟩, fun _ => rfl⟩

theorem get_status_short_response (c : Constants) (handle : minipro_handle_t) (w : World)
    (sc : List Nat) (hs : w.sendCounts = 5 :: sc)
    (hshort : (w.responses.headD []).length ≠ 32) :
    ((minipro_get_status c handle).run w).1 = .error .IOFault := by
  obtain ⟨m, hm, -⟩ := run_msg_init c.MP_REQUEST_STATUS1_MSG2 handle.device w
  simp only [minipro_get_status, run_bind, hm]
  rw [run_msg_send_ok 5 _ sc (by simpa using hs)]
  simp only []
  rw [run_msg_recv_into_short _ 32 _ (by simpa using hshort)]

theorem read_block_short_response (handle : minipro_handle_t) (type addr : Nat)
    (buf : List Nat) (w : World) (sc : List Nat) (hs : w.sendCounts = 18 :: sc)
    (hshort : (w.responses.headD []).length ≠ handle.device.read_buffer_size) :
    ((minipro_read_block handle type addr buf).run w).1 = .error .IOFault := by
  obtain ⟨m, hm, -⟩ := run_msg_init type handle.device w
  simp only [minipro_read_block, run_bind, hm, run_getMsg, run_setMsg]
  rw [run_msg_send_ok 18 _ sc (by simpa using hs)]
  simp only []
  rw [run_msg_recv_into_short _ _ _ (by simpa using hshort)]

theorem get_chip_id_short_response (c : Constants) (handle : minipro_handle_t) (w : World)
    (sc : List Nat) (hs : w.sendCounts = 8 :: sc)
    (hshort : (w.responses.headD []).length ≠ 5 + handle.device.chip_id_bytes_count) :
    ((minipro_get_chip_id c handle).run w).1 = .error .IOFault := by
  obtain ⟨m, hm, -⟩ := run_msg_init c.MP_GET_CHIP_ID handle.device w
  simp only [minipro_get_chip_id, run_bind, hm]
  rw [run_msg_send_ok 8 _ sc (by simpa using hs)]
  simp only []
  rw [run_msg_recv_short _ _ (by simpa using hshort)]

theorem read_fuses_short_response (handle : minipro_handle_t) (type length : Nat)
    (buf : List Nat) (w : World) (sc : List Nat) (hs : w.sendCounts = 18 :: sc)
    (hshort : (w.responses.headD []).length ≠ 7 + length) :
    ((minipro_read_fuses handle type length buf).run w).1 = .error .IOFault := by
  obtain ⟨m, hm, -⟩ := run_msg_init type handle.device w
  simp only [minipro_read_fuses, run_bind, hm, run_getMsg, run_setMsg]
  rw [run_msg_send_ok 18 _ sc (by simpa using hs)]
  simp only []
  rw [run_msg_recv_short _ _ (by simpa using hshort)]

theorem write_fuses_short_response (handle : minipro_handle_t) (type length : Nat)
    (buf : List Nat) (w : World) (sc : List Nat)
    (hs : w.sendCounts =
      (if type &&& 0xf0 = 0x10 then [64] else if type &&& 0xf0 = 0x40 then [10] else [])
        ++ 18 :: sc)
    (hshort : (w.responses.headD []).length ≠ 7 + length) :
    ((minipro_write_fuses handle type length buf).run w).1 = .error .IOFault := by
  obtain ⟨w1, hw1, -, hs1, hr1⟩ := write_fuses_switch_run handle type length buf w _ hs
  obtain ⟨m, hm, -⟩ := run_msg_init type handle.device w1
  simp only [minipro_write_fuses, run_bind, hw1, hm, run_getMsg, run_setMsg]
  rw [run_msg_send_ok 18 _ sc (by simpa using hs1)]
  simp only []
  rw [run_msg_recv_short _ _ (by simpa [hr1] using hshort)]

theorem get_system_info_short_response (c : Constants) (handle : minipro_handle_t)
    (out : minipro_system_info_t) (w : World) (sc : List Nat) (hs : w.sendCounts = 5 :: sc)
    (hshort : (w.responses.headD []).length ≠ 40) :
    ((minipro_get_system_info c handle out).run w).1 = .error .IOFault := by
  simp only [minipro_get_system_info, run_bind, run_getMsg, run_setMsg]
  rw [run_msg_send_ok 5 _ sc (by simpa using hs)]
  simp only []
  rw [run_msg_recv_into_short _ 40 _ (by simpa using hshort)]

theorem prepare_writing_short_response (c : Constants) (handle : minipro_handle_t)
    (w : World) (sc : List Nat) (hs : w.sendCounts = 15 :: sc)
    (hshort : (w.responses.headD []).length ≠ 10) :
    ((minipro_prepare_writing c handle).run w).1 = .error .IOFault := by
  obtain ⟨m, hm, -⟩ := run_msg_init c.MP_PREPARE_WRITING handle.device w
  simp only [minipro_prepare_writing, run_bind, hm, run_getMsg, run_setMsg]
  rw [run_msg_send_ok 15 _ sc (by simpa using hs)]
  simp only []
  rw [run_msg_recv_into_short _ 10 _ (by simpa using hshort)]

/-- C8: `msg_transfer` (and so `msg_send` and `msg_recv`) returns normally, with the
requested length as its result, if and only if the transport reports exactly the
requested number of bytes, and fails with the I/O fault for any other count.
Consequently each operation that receives (`get_status`, `read_block`, `get_chip_id`,
`read_fuses`, `write_fuses`, `get_system_info`, `prepare_writing`), once its sends are
complete, fails with the I/O fault when the response does not have the requested number
of bytes (in particular when it is shorter), whatever bytes the response holds: nothing
of it is interpreted or returned. -/
theorem short_transfer_is_io_fault (c : Constants) (handle : minipro_handle_t) (w : World)
    (sc : List Nat) :
    (∀ buf length,
      ((msg_transfer buf length .LIBUSB_ENDPOINT_OUT w).1 = .ok length ↔
        w.sendCounts.headD 0 = length) ∧
      (w.sendCounts.headD 0 ≠ length →
        (msg_transfer buf length .LIBUSB_ENDPOINT_OUT w).1 = .error .IOFault)) ∧
    (∀ buf length,
      ((msg_transfer buf length .LIBUSB_ENDPOINT_IN w).1 = .ok length ↔
        (w.responses.headD []).length = length) ∧
      ((w.responses.headD []).length ≠ length →
        (msg_transfer buf length .LIBUSB_ENDPOINT_IN w).1 = .error .IOFault)) ∧
    (∀ length,
      (((msg_send length).run w).1 = .ok length ↔ w.sendCounts.headD 0 = length) ∧
      (w.sendCounts.headD 0 ≠ length → ((msg_send length).run w).1 = .error .IOFault)) ∧
    (∀ length,
      (((msg_recv length).run w).1 = .ok length ↔ (w.responses.headD []).length = length) ∧
      ((w.responses.headD []).length ≠ length →
        ((msg_recv length).run w).1 = .error .IOFault)) ∧
    (w.sendCounts = 5 :: sc → (w.responses.headD []).length ≠ 32 →
      ((minipro_get_status c handle).run w).1 = .error .IOFault) ∧
    (∀ type addr buf, w.sendCounts = 18 :: sc →
      (w.responses.headD []).length ≠ handle.device.read_buffer_size →
      ((minipro_read_block handle type addr buf).run w).1 = .error .IOFault) ∧
    (w.sendCounts = 8 :: sc →
      (w.responses.headD []).length ≠ 5 + handle.device.chip_id_bytes_count →
      ((minipro_get_chip_id c handle).run w).1 = .error .IOFault) ∧
    (∀ type length buf, w.sendCounts = 18 :: sc →
      (w.responses.headD []).length ≠ 7 + length →
      ((minipro_read_fuses handle type length buf).run w).1 = .error .IOFault) ∧
    (∀ type length buf,
      w.sendCounts =
        (if type &&& 0xf0 = 0x10 then [64] else if type &&& 0xf0 = 0x40 then [10] else [])
          ++ 18 :: sc →
      (w.responses.headD []).length ≠ 7 + length →
      ((minipro_write_fuses handle type length buf).run w).1 = .error .IOFault) ∧
    (∀ out, w.sendCounts = 5 :: sc → (w.responses.headD []).length ≠ 40 →
      ((minipro_get_system_info c handle out).run w).1 = .error .IOFault) ∧
    (w.sendCounts = 15 :: sc → (w.responses.headD []).length ≠ 10 →
      ((minipro_prepare_writing c handle).run w).1 = .error .IOFault) :=
  ⟨fun buf length => msg_transfer_out_iff buf length w,
   fun buf length => msg_transfer_in_iff buf length w,
   fun length => msg_transfer_out_iff w.msg length w,
   fun length => msg_transfer_in_iff w.msg length w,
   fun hs hshort => get_status_short_response c handle w sc hs hshort,
   fun type addr buf hs hshort => read_block_short_response handle type addr buf w sc hs hshort,
   fun hs hshort => get_chip_id_short_response c handle w sc hs hshort,
   fun type length buf hs hshort =>
     read_fuses_short_response handle type length buf w sc hs hshort,
   fun type length buf hs hshort =>
     write_fuses_short_response handle type length buf w sc hs hshort,
   fun out hs hshort => get_system_info_short_response c handle out w sc hs hshort,
   fun hs hshort => prepare_writing_short_response c handle w sc hs hshort⟩

/-- Witness for `short_transfer_is_io_fault`: a status response of 3 bytes instead of 32
makes `minipro_get_status` fail with the I/O fault, and so does no response at all. -/
theorem short_transfer_is_io_fault_witness :
    ((minipro_get_status sampleConstants sampleHandle).run
        (sampleWorld 64 [5] [[0x34, 0x12, 0x00]])).1 = .error .IOFault ∧
    ((minipro_get_status sampleConstants sampleHandle).run
        (sampleWorld 64 [5] [])).1 = .error .IOFault :=
  ⟨(short_transfer_is_io_fault sampleConstants sampleHandle
      (sampleWorld 64 [5] [[0x34, 0x12, 0x00]]) []).2.2.2.2.1 rfl (by decide),
   (short_transfer_is_io_fault sampleConstants sampleHandle
      (sampleWorld 64 [5] []) []).2.2.2.2.1 rfl (by decide)⟩

/-! ## begin_transaction and prepare_writing -/

/-- C17: for every descriptor and every prior content of the shared buffer (of at least
48 bytes), `minipro_begin_transaction` requests exactly one transfer, an OUT transfer of
a 48-byte frame whose byte 0 is `MP_REQUEST_STATUS1_MSG1`, whose bytes 1..10 are the
header fields and whose bytes 11..47 are all `0x00`; no IN transfer is requested. -/
theorem begin_transaction_frame (c : Constants) (handle : minipro_handle_t) (w : World)
    (hcap : 48 ≤ w.msg.length) :
    ((minipro_begin_transaction c handle).run w).2.wire =
      w.wire ++ [Event.out ([c.MP_REQUEST_STATUS1_MSG1 % 256, handle.device.protocol_id % 256,
        handle.device.variant % 256, 0x00, handle.device.data_memory_size / 256 % 256,
        handle.device.opts1 % 256, handle.device.opts2 % 256,
        handle.device.opts2 / 256 % 256, handle.device.opts1 / 256 % 256,
        handle.device.opts3 % 256, handle.device.opts3 / 256 % 256] ++
        List.replicate 37 0x00)] ∧
    ([c.MP_REQUEST_STATUS1_MSG1 % 256, handle.device.protocol_id % 256,
        handle.device.variant % 256, 0x00, handle.device.data_memory_size / 256 % 256,
        handle.device.opts1 % 256, handle.device.opts2 % 256,
        handle.device.opts2 / 256 % 256, handle.device.opts1 / 256 % 256,
        handle.device.opts3 % 256, handle.device.opts3 / 256 % 256] ++
        List.replicate 37 0x00).length = 48 := by
  refine ⟨?_, by simp⟩
  simp only [minipro_begin_transaction, run_bind, run_getMsg, run_setMsg]
  rw [msg_init_run _ _ _ (by simp; omega)]
  simp only []
  rw [run_discard_state, msg_send_state]
  have h37 : min 37 (w.msg.length - 11) = 37 := by omega
  simp [headerBytes, List.take_append_eq_append_take, h37]

/-- Witness for `begin_transaction_frame`: the sample descriptor on a 64-byte `msg`
filled with `0x09`. -/
theorem begin_transaction_frame_witness :
    ((minipro_begin_transaction sampleConstants sampleHandle).run
        (sampleWorld 64 [] [])).2.wire =
      [] ++ [Event.out ([0x03, 0x31, 0x41, 0x00, 0x12, 0xBB, 0xDD, 0xCC, 0xAA, 0xFF, 0xEE] ++
        List.replicate 37 0x00)] :=
  (begin_transaction_frame sampleConstants sampleHandle (sampleWorld 64 [] [])
    (by decide)).1

/-- With both transfers complete, `minipro_prepare_writing` returns normally and leaves a
state in which no byte of the 10-byte response occurs. -/
theorem prepare_writing_run (c : Constants) (handle : minipro_handle_t) (w : World)
    (sc : List Nat) (resp : List Nat) (rest : List (List Nat)) (hcap : 11 ≤ w.msg.length)
    (hs : w.sendCounts = 15 :: sc) (hr : w.responses = resp :: rest)
    (hlen : resp.length = 10) :
    (minipro_prepare_writing c handle).run w =
      (.ok (),
        { w with
          msg := (format_int (headerBytes c.MP_PREPARE_WRITING handle.device ++ w.msg.drop 11)
            2 0x03 2 .MP_LITTLE_ENDIAN).set 2 (handle.device.write_unlock % 256),
          sendCounts := sc, responses := rest,
          wire := w.wire ++ [Event.out (((format_int
            (headerBytes c.MP_PREPARE_WRITING handle.device ++ w.msg.drop 11)
            2 0x03 2 .MP_LITTLE_ENDIAN).set 2 (handle.device.write_unlock % 256)).take 15)] ++
            [Event.inp 10] }) := by
  simp only [minipro_prepare_writing, run_bind, msg_init_run _ _ _ hcap, run_getMsg,
    run_setMsg]
  rw [run_msg_send_ok 15 _ sc (by simpa using hs)]
  simp only []
  rw [run_msg_recv_into_ok _ 10 _ resp rest (by simpa using hr) hlen]
  rfl

/-- C18: for every descriptor, with `msg` of at least 15 bytes and both transfers
complete, `minipro_prepare_writing` requests one OUT transfer of a 15-byte frame with
byte 0 = `MP_PREPARE_WRITING`, byte 1 = `protocol_id`, byte 2 = the low byte of
`write_unlock` (neither the variant nor `0x03`) and byte 3 = `0x00`, then one IN transfer
of 10 bytes, and returns normally; the outcome and the state left are the same for
every 10-byte response. -/
theorem prepare_writing_frame (c : Constants) (handle : minipro_handle_t) (w : World)
    (sc : List Nat) (resp : List Nat) (rest : List (List Nat)) (hcap : 15 ≤ w.msg.length)
    (hs : w.sendCounts = 15 :: sc) (hr : w.responses = resp :: rest)
    (hlen : resp.length = 10) :
    ((minipro_prepare_writing c handle).run w).1 = .ok () ∧
    ((minipro_prepare_writing c handle).run w).2.wire =
      w.wire ++ [Event.out ([c.MP_PREPARE_WRITING % 256, handle.device.protocol_id % 256,
          handle.device.write_unlock % 256, 0x00,
          handle.device.data_memory_size / 256 % 256, handle.device.opts1 % 256,
          handle.device.opts2 % 256, handle.device.opts2 / 256 % 256,
          handle.device.opts1 / 256 % 256, handle.device.opts3 % 256,
          handle.device.opts3 / 256 % 256] ++ (w.msg.drop 11).take 4),
        Event.inp 10] ∧
    ([c.MP_PREPARE_WRITING % 256, handle.device.protocol_id % 256,
          handle.device.write_unlock % 256, 0x00,
          handle.device.data_memory_size / 256 % 256, handle.device.opts1 % 256,
          handle.device.opts2 % 256, handle.device.opts2 / 256 % 256,
          handle.device.opts1 / 256 % 256, handle.device.opts3 % 256,
          handle.device.opts3 / 256 % 256] ++ (w.msg.drop 11).take 4).length = 15 ∧
    (∀ resp2 : List Nat, resp2.length = 10 →
      (minipro_prepare_writing c handle).run { w with responses := resp2 :: rest } =
        (minipro_prepare_writing c handle).run w) := by
  have h11 : 11 ≤ w.msg.length := by omega
  refine ⟨?_, ?_, by simp; omega, ?_⟩
  · rw [prepare_writing_run c handle w sc resp rest h11 hs hr hlen]
  · rw [prepare_writing_run c handle w sc resp rest h11 hs hr hlen]
    simp [headerBytes, format_int, pack, List.range_succ, store,
      List.take_append_eq_append_take]
  · intro resp2 hlen2
    rw [prepare_writing_run c handle w sc resp rest h11 hs hr hlen,
      prepare_writing_run c handle { w with responses := resp2 :: rest } sc resp2 rest h11 hs
        rfl hlen2]

/-- Witness for `prepare_writing_frame`: the sample descriptor (`write_unlock = 0x77`,
`variant = 0x41`) on a 64-byte `msg` filled with `0x09`. -/
theorem prepare_writing_frame_witness :
    ((minipro_prepare_writing sampleConstants sampleHandle).run
        (sampleWorld 64 [15] [List.replicate 10 0xEE])).2.wire =
      [] ++ [Event.out ([0x20, 0x31, 0x77, 0x00, 0x12, 0xBB, 0xDD, 0xCC, 0xAA, 0xFF, 0xEE] ++
          List.take 4 (List.drop 11 (List.replicate 64 9))),
        Event.inp 10] :=
  (prepare_writing_frame sampleConstants sampleHandle
    (sampleWorld 64 [15] [List.replicate 10 0xEE]) [] (List.replicate 10 0xEE) []
    (by decide) rfl rfl (by decide)).2.1

/-! ## What msg_init leaves untouched -/

/-- An OUT transfer either completes or raises the I/O fault; the state it leaves is the
same in both cases. -/
theorem run_msg_send_cases (n : Nat) (w : World) :
    (msg_send n).run w =
        (.ok n, { w with sendCounts := w.sendCounts.tail,
                         wire := w.wire ++ [Event.out (w.msg.take n)] }) ∨
    (msg_send n).run w =
        (.error .IOFault, { w with sendCounts := w.sendCounts.tail,
                                   wire := w.wire ++ [Event.out (w.msg.take n)] }) := by
  simp only [Prog.run, msg_send, msg_transfer]
  by_cases h : w.sendCounts.headD 0 = n
  · left
    rw [if_neg (not_not.mpr h), h]
  · right
    rw [if_pos h]

/-- Whatever the transport delivers, an IN transfer into a buffer other than `msg` adds
the request to the wire and nothing else. -/
theorem msg_recv_into_wire (buf : List Nat) (n : Nat) (w : World) :
    ((msg_recv_into buf n).run w).2.wire = w.wire ++ [Event.inp n] := by
  simp only [Prog.run, msg_recv_into, msg_transfer]
  split <;> rfl

/-- C20: `msg_init` changes only offsets 0..10 of the shared buffer (its length and
every byte from offset 11 on stay as they were), so the first transfer
`minipro_read_block` requests is an OUT transfer of an 18-byte frame whose bytes 0..10
are determined by the type, the address and the descriptor alone, and whose bytes
11..17 are the bytes `msg` held at offsets 11..17 before the call. -/
theorem read_block_frame_tail (handle : minipro_handle_t) (type addr : Nat)
    (buf : List Nat) (w : World) (hcap : 18 ≤ w.msg.length) :
    ((msg_init type handle.device).run w).2.msg.drop 11 = w.msg.drop 11 ∧
    ((msg_init type handle.device).run w).2.msg.length = w.msg.length ∧
    (∃ tail, ((minipro_read_block handle type addr buf).run w).2.wire =
      w.wire ++ Event.out ([type % 256, handle.device.protocol_id % 256,
          handle.device.read_buffer_size % 256, handle.device.read_buffer_size / 256 % 256,
          addr % 256, addr / 256 % 256, addr / 65536 % 256,
          handle.device.opts2 / 256 % 256, handle.device.opts1 / 256 % 256,
          handle.device.opts3 % 256, handle.device.opts3 / 256 % 256] ++
          (w.msg.drop 11).take 7) :: tail) ∧
    ((w.msg.drop 11).take 7).length = 7 := by
  have h11 : 11 ≤ w.msg.length := by omega
  refine ⟨?_, ?_, ?_, by simp; omega⟩
  · rw [msg_init_run _ _ _ h11]
    simp [headerBytes]
  · rw [msg_init_run _ _ _ h11]
    simp [headerBytes]; omega
  · simp only [minipro_read_block, run_bind, msg_init_run _ _ _ h11, run_getMsg, run_setMsg]
    rcases run_msg_send_cases 18 { w with msg := (format_int
        (format_int (headerBytes type handle.device ++ List.drop 11 w.msg) 2
          handle.device.read_buffer_size 2 .MP_LITTLE_ENDIAN) 4 addr 3 .MP_LITTLE_ENDIAN) }
      with hsend | hsend
    · rw [hsend]
      simp only []
      rw [msg_recv_into_wire]
      refine ⟨[Event.inp handle.device.read_buffer_size], ?_⟩
      simp [headerBytes, format_int, pack, List.range_succ, store,
        List.take_append_eq_append_take]
    · rw [hsend]
      refine ⟨[], ?_⟩
      simp [headerBytes, format_int, pack, List.range_succ, store,
        List.take_append_eq_append_take]

/-- Witness for `read_block_frame_tail`: on a 64-byte `msg` filled with `0x09` the frame
of `minipro_read_block` ends in seven bytes `0x09`. -/
theorem read_block_frame_tail_witness :
    ∃ tail, ((minipro_read_block sampleHandle 0x130 0x01020304 [0, 0, 0, 0]).run
        (sampleWorld 64 [18] [[1, 2, 3, 4]])).2.wire =
      [] ++ Event.out ([0x30, 0x31, 4, 0, 0x04, 0x03, 0x02, 0xCC, 0xAA, 0xFF, 0xEE] ++
          List.take 7 (List.drop 11 (List.replicate 64 9))) :: tail :=
  (read_block_frame_tail sampleHandle 0x130 0x01020304 [0, 0, 0, 0]
    (sampleWorld 64 [18] [[1, 2, 3, 4]]) (by decide)).2.2.1

/-! ## read_fuses -/

/-- The bytes `[k, k + n)` of a buffer that received a response of `k + n` bytes at its
start are the bytes `[k, k + n)` of the response. -/
theorem map_range_getD_store (m resp : List Nat) (k n : Nat) (hlen : resp.length = k + n)
    (hcap : k + n ≤ m.length) :
    ((List.range n).map fun i => (store m 0 resp).getD (k + i) 0) = resp.drop k := by
  rw [store_zero_eq _ _ (by omega)]
  rw [map_range_getD_add _ k n (by simp; omega)]
  rw [List.drop_append_of_le_length (by omega)]
  rw [List.take_append_of_le_length (by simp; omega)]
  rw [List.take_of_length_le (by simp; omega)]

/-- C13: for every type and length, with `msg` of at least 18 and at least `7 + length`
bytes, both transfers complete and a caller buffer of at least `length` bytes,
`minipro_read_fuses` requests one OUT transfer of an 18-byte frame with byte 0 =
`type mod 256` and byte 5 = `0x10`, then one IN transfer of `7 + length` bytes, and hands
back the caller's buffer with response bytes `[7, 7 + length)` in its first `length`
places; response bytes 0..6 do not affect the result. -/
theorem read_fuses_frame_and_bytes (handle : minipro_handle_t) (type length : Nat)
    (buf : List Nat) (w : World) (sc : List Nat) (resp : List Nat) (rest : List (List Nat))
    (hcap : 18 ≤ w.msg.length) (hcapr : 7 + length ≤ w.msg.length)
    (hs : w.sendCounts = 18 :: sc) (hr : w.responses = resp :: rest)
    (hlen : resp.length = 7 + length) (hbuf : length ≤ buf.length) :
    ((minipro_read_fuses handle type length buf).run w).1 =
      .ok (resp.drop 7 ++ buf.drop length) ∧
    ((minipro_read_fuses handle type length buf).run w).2.wire =
      w.wire ++ [Event.out ([type % 256, handle.device.protocol_id % 256,
          (if type = 18 ∧ length = 4 then 2 else 1), 0x00,
          handle.device.data_memory_size / 256 % 256, 0x10,
          handle.device.opts2 % 256, handle.device.opts2 / 256 % 256,
          handle.device.opts1 / 256 % 256, handle.device.opts3 % 256,
          handle.device.opts3 / 256 % 256] ++ (w.msg.drop 11).take 7),
        Event.inp (7 + length)] ∧
    ([type % 256, handle.device.protocol_id % 256,
          (if type = 18 ∧ length = 4 then 2 else 1), 0x00,
          handle.device.data_memory_size / 256 % 256, 0x10,
          handle.device.opts2 % 256, handle.device.opts2 / 256 % 256,
          handle.device.opts1 / 256 % 256, handle.device.opts3 % 256,
          handle.device.opts3 / 256 % 256] ++ (w.msg.drop 11).take 7).length = 18 ∧
    (∀ resp2 : List Nat, resp2.length = 7 + length → resp2.drop 7 = resp.drop 7 →
      ((minipro_read_fuses handle type length buf).run
          { w with responses := resp2 :: rest }).1 =
        ((minipro_read_fuses handle type length buf).run w).1) := by
  have h11 : 11 ≤ w.msg.length := by omega
  have key : ∀ r : List Nat, r.length = 7 + length →
      (minipro_read_fuses handle type length buf).run { w with responses := r :: rest } =
        (.ok (r.drop 7 ++ buf.drop length),
          { w with
            msg := store (((headerBytes type handle.device ++ w.msg.drop 11).set 2
              (if type = 18 ∧ length = 4 then 2 else 1)).set 5 0x10) 0 r,
            sendCounts := sc, responses := rest,
            wire := w.wire ++ [Event.out ((((headerBytes type handle.device ++
              w.msg.drop 11).set 2 (if type = 18 ∧ length = 4 then 2 else 1)).set 5
              0x10).take 18)] ++ [Event.inp (7 + length)] }) := by
    intro r hr2
    simp only [minipro_read_fuses, run_bind,
      msg_init_run type handle.device { w with responses := r :: rest } h11, run_getMsg,
      run_setMsg]
    rw [run_msg_send_ok 18 _ sc (by simpa using hs)]
    simp only []
    rw [run_msg_recv_ok (7 + length) _ r rest rfl hr2]
    simp only [run_getMsg, run_pure, memcpy]
    rw [map_range_getD_store _ r 7 length hr2 (by simp [headerBytes]; omega)]
    rw [store_zero_eq _ _ (by simp [hr2]; omega)]
    simp [hr2]
  have hw : w = { w with responses := resp :: rest } := by rw [← hr]
  refine ⟨?_, ?_, by simp; omega, ?_⟩
  · rw [hw, key resp hlen]
  · rw [hw, key resp hlen]
    simp [headerBytes, List.take_append_eq_append_take]
  · intro resp2 hlen2 hdrop
    rw [key resp2 hlen2]
    conv_rhs => rw [hw, key resp hlen]
    simp [hdrop]

/-- Witness for `read_fuses_frame_and_bytes`: type `0x12`, 4 fuse bytes; the response
`fuseEcho` hands back `[1, 2, 3, 4]`. -/
theorem read_fuses_frame_and_bytes_witness :
    ((minipro_read_fuses sampleHandle 0x12 4 [0, 0, 0, 0]).run
        (sampleWorld 64 [18] [fuseEcho])).1 =
      .ok (List.drop 7 fuseEcho ++ List.drop 4 [0, 0, 0, 0]) :=
  (read_fuses_frame_and_bytes sampleHandle 0x12 4 [0, 0, 0, 0]
    (sampleWorld 64 [18] [fuseEcho]) [] fuseEcho [] (by decide) (by decide) rfl rfl
    (by decide) (by decide)).1

/-! ## write_fuses: the frames -/

/-- A `memcpy` of a whole source buffer is the store of its bytes. -/
theorem memcpy_zero_eq (m : List Nat) (off : Nat) (buf : List Nat) (n : Nat)
    (h : buf.length = n) : memcpy m off buf 0 n = store m off buf := by
  subst h
  simp only [memcpy, Nat.zero_add]
  rw [map_range_getD]

/-- A store at offset 7 behind seven explicit bytes. -/
theorem store_seven (a0 a1 a2 a3 a4 a5 a6 : Nat) (l buf : List Nat)
    (h : buf.length ≤ l.length) :
    store (a0 :: a1 :: a2 :: a3 :: a4 :: a5 :: a6 :: l) 7 buf =
      a0 :: a1 :: a2 :: a3 :: a4 :: a5 :: a6 :: (buf ++ l.drop buf.length) := by
  show store (a0 :: a1 :: a2 :: a3 :: a4 :: a5 :: a6 :: l) (6 + 1) buf = _
  rw [store_cons_succ]
  show a0 :: store (a1 :: a2 :: a3 :: a4 :: a5 :: a6 :: l) (5 + 1) buf = _
  rw [store_cons_succ]
  show a0 :: a1 :: store (a2 :: a3 :: a4 :: a5 :: a6 :: l) (4 + 1) buf = _
  rw [store_cons_succ]
  show a0 :: a1 :: a2 :: store (a3 :: a4 :: a5 :: a6 :: l) (3 + 1) buf = _
  rw [store_cons_succ]
  show a0 :: a1 :: a2 :: a3 :: store (a4 :: a5 :: a6 :: l) (2 + 1) buf = _
  rw [store_cons_succ]
  show a0 :: a1 :: a2 :: a3 :: a4 :: store (a5 :: a6 :: l) (1 + 1) buf = _
  rw [store_cons_succ]
  show a0 :: a1 :: a2 :: a3 :: a4 :: a5 :: store (a6 :: l) (0 + 1) buf = _
  rw [store_cons_succ, store_zero_eq _ _ h]

/-- The `switch` of `minipro_write_fuses` for the family `0x10`, its transfer complete. -/
theorem write_fuses_switch_run_10 (handle : minipro_handle_t) (type length : Nat)
    (buf : List Nat) (w : World) (sc : List Nat) (hfam : type &&& 0xf0 = 0x10)
    (h11 : 11 ≤ w.msg.length) (hs : w.sendCounts = 64 :: sc) :
    (write_fuses_switch handle type length buf).run w =
      (.ok (),
        { w with
          msg := memcpy (((((headerBytes (type + 1) handle.device ++ w.msg.drop 11).set 2
            (if length = 4 then 0x02 else 0x01)).set 4 0xc8).set 5 0x0f).set 6 0x00) 7 buf 0
            length,
          sendCounts := sc,
          wire := w.wire ++ [Event.out ((memcpy (((((headerBytes (type + 1) handle.device ++
            w.msg.drop 11).set 2 (if length = 4 then 0x02 else 0x01)).set 4 0xc8).set 5
            0x0f).set 6 0x00) 7 buf 0 length).take 64)] }) := by
  rw [write_fuses_switch, if_pos hfam]
  simp only [run_bind, msg_init_run _ _ _ h11, run_getMsg, run_setMsg]
  rw [run_msg_send_ok 64 _ sc (by simpa using hs)]
  rfl

/-- The `switch` of `minipro_write_fuses` for the family `0x40`, its transfer complete. -/
theorem write_fuses_switch_run_40 (handle : minipro_handle_t) (type length : Nat)
    (buf : List Nat) (w : World) (sc : List Nat) (hfam : type &&& 0xf0 = 0x40)
    (h11 : 11 ≤ w.msg.length) (hs : w.sendCounts = 10 :: sc) :
    (write_fuses_switch handle type length buf).run w =
      (.ok (),
        { w with
          msg := memcpy (headerBytes (type - 1) handle.device ++ w.msg.drop 11) 7 buf 0 length,
          sendCounts := sc,
          wire := w.wire ++ [Event.out ((memcpy (headerBytes (type - 1) handle.device ++
            w.msg.drop 11) 7 buf 0 length).take 10)] }) := by
  have h10 : ¬ type &&& 0xf0 = 0x10 := by rw [hfam]; decide
  rw [write_fuses_switch, if_neg h10, if_pos hfam]
  simp only [run_bind, msg_init_run _ _ _ h11, run_getMsg, run_setMsg]
  rw [run_msg_send_ok 10 _ sc (by simpa using hs)]
  rfl

/-- The `switch` of `minipro_write_fuses` for any other family does nothing. -/
theorem write_fuses_switch_run_other (handle : minipro_handle_t) (type length : Nat)
    (buf : List Nat) (w : World) (h10 : ¬ type &&& 0xf0 = 0x10)
    (h40 : ¬ type &&& 0xf0 = 0x40) :
    (write_fuses_switch handle type length buf).run w = (.ok (), w) := by
  rw [write_fuses_switch, if_neg h10, if_neg h40]
  rfl

/-- A check that either raises a fault or does nothing leaves the state as it was. -/
theorem run_check_state (c : Prop) [Decidable c] (f : Fault) (w : World) :
    ((if c then (ERROR f : Prog Unit) else pure ()).run w).2 = w := by
  by_cases h : c
  · rw [if_pos h]; rfl
  · rw [if_neg h]; rfl

/-- The verification round of `minipro_write_fuses`, from the state `w1` the `switch`
left, with both its transfers complete: one OUT frame of the first 18 bytes of `msg`
and one IN transfer of `7 + length` bytes. -/
theorem write_fuses_verify_wire (handle : minipro_handle_t) (type length : Nat)
    (buf : List Nat) (w w1 : World) (sc : List Nat) (resp : List Nat)
    (rest : List (List Nat))
    (hw1 : (write_fuses_switch handle type length buf).run w = (.ok (), w1))
    (h11 : 11 ≤ w1.msg.length) (hs1 : w1.sendCounts = 18 :: sc)
    (hr1 : w1.responses = resp :: rest) (hlen : resp.length = 7 + length) :
    ((minipro_write_fuses handle type length buf).run w).2.wire =
      w1.wire ++ [Event.out ((memcpy ((headerBytes type handle.device ++ w1.msg.drop 11).set 2
          (if type = 18 ∧ length = 4 then 2 else 1)) 7 buf 0 length).take 18),
        Event.inp (7 + length)] := by
  simp only [minipro_write_fuses, run_bind, hw1, msg_init_run _ _ _ h11, run_getMsg,
    run_setMsg]
  rw [run_msg_send_ok 18 _ sc (by simpa using hs1)]
  simp only []
  rw [run_msg_recv_ok (7 + length) _ resp rest (by simpa using hr1) hlen]
  simp only [run_getMsg]
  rw [run_check_state]
  simp only [List.append_assoc, List.singleton_append]

/-- The verification frame: 18 bytes, byte 0 the type, byte 2 the word-count flag. -/
theorem verify_frame_bytes (type length : Nat) (device : device_t) (t buf : List Nat)
    (flag : Nat) (h : 7 ≤ t.length) :
    ((memcpy ((headerBytes type device ++ t).set 2 flag) 7 buf 0 length).take 18).length
      = 18 ∧
    ((memcpy ((headerBytes type device ++ t).set 2 flag) 7 buf 0 length).take 18).getD 0 0
      = type % 256 ∧
    ((memcpy ((headerBytes type device ++ t).set 2 flag) 7 buf 0 length).take 18).getD 2 0
      = flag := by
  refine ⟨?_, ?_, ?_⟩
  · simp [memcpy, headerBytes]; omega
  · simp only [memcpy, headerBytes, List.cons_append, List.set_cons_succ, List.set_cons_zero]
    show (List.take 18 (store _ (6 + 1) _)).getD 0 0 = _
    rw [store_cons_succ]
    rfl
  · simp only [memcpy, headerBytes, List.cons_append, List.set_cons_succ, List.set_cons_zero]
    show (List.take 18 (store _ (6 + 1) _)).getD 2 0 = _
    rw [store_cons_succ]
    show (List.take 18 (_ :: store _ (5 + 1) _)).getD 2 0 = _
    rw [store_cons_succ]
    show (List.take 18 (_ :: _ :: store _ (4 + 1) _)).getD 2 0 = _
    rw [store_cons_succ]
    rfl

/-- Whatever the transport delivers, an IN transfer into `msg` adds the request to the
wire. -/
theorem msg_recv_wire (n : Nat) (w : World) :
    ((msg_recv n).run w).2.wire = w.wire ++ [Event.inp n] := by
  simp only [Prog.run, msg_recv, msg_transfer]
  split <;> rfl

/-- Computing a result from what an operation returned does not change the state. -/
theorem run_then_pure_state {α β : Type} (p : Prog α) (g : α → World → β) (w : World) :
    (match p.run w with
      | (.ok a, w1) => ((.ok (g a w1) : Except Fault β), w1)
      | (.error e, w1) => (.error e, w1)).2 = (p.run w).2 := by
  split <;> simp_all

/-- The first transfer `minipro_read_fuses` requests, whatever the transport does. -/
theorem read_fuses_first_frame (handle : minipro_handle_t) (type length : Nat)
    (buf : List Nat) (w : World) (h11 : 11 ≤ w.msg.length) :
    ∃ tail, ((minipro_read_fuses handle type length buf).run w).2.wire =
      w.wire ++ Event.out ((((headerBytes type handle.device ++ w.msg.drop 11).set 2
        (if type = 18 ∧ length = 4 then 2 else 1)).set 5 0x10).take 18) :: tail := by
  simp only [minipro_read_fuses, run_bind, msg_init_run _ _ _ h11, run_getMsg, run_setMsg]
  rcases run_msg_send_cases 18 { w with msg := (((headerBytes type handle.device ++
      w.msg.drop 11).set 2 (if type = 18 ∧ length = 4 then 2 else 1)).set 5 0x10) }
    with hsend | hsend
  · rw [hsend]
    refine ⟨[Event.inp (7 + length)], ?_⟩
    simp only [run_pure]
    rw [run_then_pure_state _ (fun _ w1 => memcpy buf 0 w1.msg 7 length), msg_recv_wire]
    simp
  · rw [hsend]
    exact ⟨[], rfl⟩

/-- C12: for every type and length (with `msg` of at least 18 bytes), byte 2 of the
request `minipro_read_fuses` sends, and byte 2 of the verification request
`minipro_write_fuses` sends after its `switch`, is the word-count flag: 2 when
`type = 18` and `length = 4`, and 1 in every other case. -/
theorem fuse_word_count_flag (handle : minipro_handle_t) (type length : Nat)
    (buf : List Nat) (w : World) (sc : List Nat) (resp : List Nat) (rest : List (List Nat))
    (hcap : 18 ≤ w.msg.length)
    (hs : w.sendCounts =
      (if type &&& 0xf0 = 0x10 then [64] else if type &&& 0xf0 = 0x40 then [10] else [])
        ++ 18 :: sc)
    (hr : w.responses = resp :: rest) (hlen : resp.length = 7 + length) :
    (∃ frame tail, ((minipro_read_fuses handle type length buf).run w).2.wire =
        w.wire ++ Event.out frame :: tail ∧
      frame.getD 2 0 = (if type = 18 ∧ length = 4 then 2 else 1)) ∧
    (∃ w1 frame, (write_fuses_switch handle type length buf).run w = (.ok (), w1) ∧
      ((minipro_write_fuses handle type length buf).run w).2.wire =
        w1.wire ++ [Event.out frame, Event.inp (7 + length)] ∧
      frame.getD 2 0 = (if type = 18 ∧ length = 4 then 2 else 1)) := by
  have h11 : 11 ≤ w.msg.length := by omega
  constructor
  · obtain ⟨tail, htail⟩ := read_fuses_first_frame handle type length buf w h11
    refine ⟨_, tail, htail, ?_⟩
    simp [headerBytes]
  · obtain ⟨w1, hw1, hl1, hs1, hr1⟩ := write_fuses_switch_run handle type length buf w _ hs
    refine ⟨w1, _, hw1, write_fuses_verify_wire handle type length buf w w1 sc resp rest hw1
      (by omega) hs1 (by rw [hr1, hr]) hlen, ?_⟩
    exact (verify_frame_bytes type length handle.device (w1.msg.drop 11) buf _
      (by simp; omega)).2.2

/-- Witness for `fuse_word_count_flag`: in the verification request the flag is 2 for
type 18 and length 4, 1 for type 18 and length 2, and 1 for type 99 and length 4. -/
theorem fuse_word_count_flag_witness :
    (∃ w1 frame, (write_fuses_switch sampleHandle 18 4 [1, 2, 3, 4]).run
        (sampleWorld 80 [64, 18] [fuseEcho]) = (.ok (), w1) ∧
      ((minipro_write_fuses sampleHandle 18 4 [1, 2, 3, 4]).run
        (sampleWorld 80 [64, 18] [fuseEcho])).2.wire =
        w1.wire ++ [Event.out frame, Event.inp (7 + 4)] ∧
      frame.getD 2 0 = 2) ∧
    (∃ w1 frame, (write_fuses_switch sampleHandle 18 2 [1, 2]).run
        (sampleWorld 80 [64, 18] [List.replicate 9 0]) = (.ok (), w1) ∧
      ((minipro_write_fuses sampleHandle 18 2 [1, 2]).run
        (sampleWorld 80 [64, 18] [List.replicate 9 0])).2.wire =
        w1.wire ++ [Event.out frame, Event.inp (7 + 2)] ∧
      frame.getD 2 0 = 1) ∧
    (∃ w1 frame, (write_fuses_switch sampleHandle 99 4 [1, 2, 3, 4]).run
        (sampleWorld 80 [18] [fuseEcho]) = (.ok (), w1) ∧
      ((minipro_write_fuses sampleHandle 99 4 [1, 2, 3, 4]).run
        (sampleWorld 80 [18] [fuseEcho])).2.wire =
        w1.wire ++ [Event.out frame, Event.inp (7 + 4)] ∧
      frame.getD 2 0 = 1) :=
  ⟨(fuse_word_count_flag sampleHandle 18 4 [1, 2, 3, 4] (sampleWorld 80 [64, 18] [fuseEcho])
      [] fuseEcho [] (by decide) (by decide) rfl (by decide)).2,
   (fuse_word_count_flag sampleHandle 18 2 [1, 2]
      (sampleWorld 80 [64, 18] [List.replicate 9 0]) [] (List.replicate 9 0) [] (by decide)
      (by decide) rfl (by decide)).2,
   (fuse_word_count_flag sampleHandle 99 4 [1, 2, 3, 4] (sampleWorld 80 [18] [fuseEcho])
      [] fuseEcho [] (by decide) (by decide) rfl (by decide)).2⟩

/-- The 64-byte frame of the family `0x10`: seven bytes, the payload, and what `msg`
held behind it. -/
theorem frame_64_shape (cmd flag : Nat) (device : device_t) (t buf : List Nat) (length : Nat)
    (hbuf : buf.length = length) (h57 : length ≤ 57) (ht : 53 ≤ t.length) :
    ∃ pad, (memcpy (((((headerBytes cmd device ++ t).set 2 flag).set 4 0xc8).set 5 0x0f).set 6
        0x00) 7 buf 0 length).take 64 =
      [cmd % 256, device.protocol_id % 256, flag, 0x00, 0xc8, 0x0f, 0x00] ++ buf ++ pad ∧
      pad.length = 57 - length := by
  subst hbuf
  refine ⟨List.take (57 - buf.length) (List.drop buf.length
    (device.opts2 / 256 % 256 :: device.opts1 / 256 % 256 :: device.opts3 % 256 ::
      device.opts3 / 256 % 256 :: t)), ?_, ?_⟩
  · rw [memcpy_zero_eq _ _ _ _ rfl]
    simp only [headerBytes, List.cons_append, List.nil_append, List.set_cons_succ,
      List.set_cons_zero]
    rw [store_seven _ _ _ _ _ _ _ _ _ (by simp; omega)]
    show List.take (7 + 57) _ = _
    rw [take_seven_add, List.take_append_eq_append_take, List.take_of_length_le h57]
  · simp; omega

/-- The 10-byte frame of the family `0x40`: seven header bytes, the first three payload
bytes, and (for a payload shorter than three bytes) what `msg` held behind them. -/
theorem frame_10_shape (cmd : Nat) (device : device_t) (t buf : List Nat) (length : Nat)
    (hbuf : buf.length = length) (ht : length ≤ 4 + t.length) :
    ∃ pad, (memcpy (headerBytes cmd device ++ t) 7 buf 0 length).take 10 =
      [cmd % 256, device.protocol_id % 256, device.variant % 256, 0x00,
        device.data_memory_size / 256 % 256, device.opts1 % 256, device.opts2 % 256] ++
        buf.take 3 ++ pad ∧
      pad.length = 3 - length := by
  subst hbuf
  refine ⟨List.take (3 - buf.length) (List.drop buf.length
    (device.opts2 / 256 % 256 :: device.opts1 / 256 % 256 :: device.opts3 % 256 ::
      device.opts3 / 256 % 256 :: t)), ?_, ?_⟩
  · rw [memcpy_zero_eq _ _ _ _ rfl]
    simp only [headerBytes, List.cons_append, List.nil_append]
    rw [store_seven _ _ _ _ _ _ _ _ _ (by simp; omega)]
    show List.take (7 + 3) _ = _
    rw [take_seven_add, List.take_append_eq_append_take]
  · simp; omega

/-- With all transfers complete, `minipro_write_fuses` returns normally when the echoed
payload equals the payload and raises the verification fault otherwise. -/
theorem write_fuses_result (handle : minipro_handle_t) (type length : Nat)
    (buf : List Nat) (w : World) (sc : List Nat) (resp : List Nat) (rest : List (List Nat))
    (hbuf : buf.length = length) (hcap : 7 + length ≤ w.msg.length)
    (hs : w.sendCounts =
      (if type &&& 0xf0 = 0x10 then [64] else if type &&& 0xf0 = 0x40 then [10] else [])
        ++ 18 :: sc)
    (hr : w.responses = resp :: rest) (hlen : resp.length = 7 + length) :
    ((minipro_write_fuses handle type length buf).run w).1 =
      if buf = (resp.drop 7).take length then .ok () else .error .VerificationFailure := by
  obtain ⟨w1, hw1, hl1, hs1, hr1⟩ := write_fuses_switch_run handle type length buf w _ hs
  obtain ⟨m, hm, hml⟩ := run_msg_init type handle.device w1
  have hbufmap : ((List.range length).map fun i => buf.getD i 0) = buf := by
    rw [← hbuf]; exact map_range_getD buf
  simp only [minipro_write_fuses, run_bind, hw1, hm, run_getMsg, run_setMsg]
  rw [run_msg_send_ok 18 _ sc (by simpa using hs1)]
  simp only []
  rw [run_msg_recv_ok (7 + length) _ resp rest (by simpa [hr1] using hr) hlen]
  simp only []
  rw [store_zero_eq _ _ (by simp [memcpy, hml, hl1, hlen]; omega)]
  rw [map_range_getD_add _ 7 length (by simp [hlen]), hbufmap]
  rw [List.drop_append_of_le_length (by omega)]
  rw [List.take_append_of_le_length (by simp [hlen])]
  by_cases h : buf = (resp.drop 7).take length
  · rw [if_neg (not_not.mpr h), if_pos h]; rfl
  · rw [if_pos h, if_neg h]; rfl

/-- C14: for every type of the family `0x10` and a payload of `length ≤ 57` bytes, with
`msg` of at least 64 bytes and all transfers complete, `minipro_write_fuses` requests
exactly three transfers: an OUT transfer of a 64-byte frame with byte 0 =
`(type + 1) mod 256`, byte 2 = 2 if `length = 4` and 1 otherwise, byte 4 = `0xc8`,
byte 5 = `0x0f`, byte 6 = `0x00` and bytes `[7, 7 + length)` equal to the payload; an
OUT transfer of an 18-byte verification frame with byte 0 = `type mod 256`; and the IN
transfer of the verification response. -/
theorem write_fuses_family_10_frames (handle : minipro_handle_t) (type length : Nat)
    (buf : List Nat) (w : World) (sc : List Nat) (resp : List Nat) (rest : List (List Nat))
    (hfam : type &&& 0xf0 = 0x10) (hbuf : buf.length = length) (h57 : length ≤ 57)
    (hcap : 64 ≤ w.msg.length) (hs : w.sendCounts = 64 :: 18 :: sc)
    (hr : w.responses = resp :: rest) (hlen : resp.length = 7 + length) :
    ∃ pad vframe,
      ((minipro_write_fuses handle type length buf).run w).2.wire =
        w.wire ++ [Event.out ([(type + 1) % 256, handle.device.protocol_id % 256,
            (if length = 4 then 2 else 1), 0x00, 0xc8, 0x0f, 0x00] ++ buf ++ pad),
          Event.out vframe, Event.inp (7 + length)] ∧
      pad.length = 57 - length ∧
      ([(type + 1) % 256, handle.device.protocol_id % 256,
            (if length = 4 then 2 else 1), 0x00, 0xc8, 0x0f, 0x00] ++ buf ++ pad).length = 64 ∧
      vframe.length = 18 ∧ vframe.getD 0 0 = type % 256 := by
  have h11 : 11 ≤ w.msg.length := by omega
  have hw1 := write_fuses_switch_run_10 handle type length buf w (18 :: sc) hfam h11 hs
  have hwire := write_fuses_verify_wire handle type length buf w _ sc resp rest hw1
    (by simp [memcpy, headerBytes]) rfl hr hlen
  obtain ⟨pad, hpad, hpl⟩ := frame_64_shape (type + 1) (if length = 4 then 2 else 1)
    handle.device (w.msg.drop 11) buf length hbuf h57 (by simp; omega)
  have hv := verify_frame_bytes type length handle.device
    (List.drop 11 (memcpy (((((headerBytes (type + 1) handle.device ++ w.msg.drop 11).set 2
      (if length = 4 then 0x02 else 0x01)).set 4 0xc8).set 5 0x0f).set 6 0x00) 7 buf 0 length))
    buf (if type = 18 ∧ length = 4 then 2 else 1) (by simp [memcpy, headerBytes]; omega)
  refine ⟨pad, _, ?_, hpl, ?_, hv.1, hv.2.1⟩
  · rw [hwire]
    simp only []
    rw [hpad]
    simp
  · simp [hpl, hbuf]; omega

/-- Witness for `write_fuses_family_10_frames`: type `0x12` and the payload `[1, 2, 3, 4]`
on the sample descriptor, `msg` of 80 bytes. -/
theorem write_fuses_family_10_frames_witness :
    ∃ pad vframe,
      ((minipro_write_fuses sampleHandle 0x12 4 [1, 2, 3, 4]).run
          (sampleWorld 80 [64, 18] [fuseEcho])).2.wire =
        [] ++ [Event.out ([0x13, 0x31, 2, 0x00, 0xc8, 0x0f, 0x00] ++ [1, 2, 3, 4] ++ pad),
          Event.out vframe, Event.inp (7 + 4)] ∧
      pad.length = 57 - 4 ∧
      ([0x13, 0x31, 2, 0x00, 0xc8, 0x0f, 0x00] ++ [1, 2, 3, 4] ++ pad).length = 64 ∧
      vframe.length = 18 ∧ vframe.getD 0 0 = 0x12 :=
  write_fuses_family_10_frames sampleHandle 0x12 4 [1, 2, 3, 4]
    (sampleWorld 80 [64, 18] [fuseEcho]) [] fuseEcho [] (by decide) (by decide) (by decide)
    (by decide) rfl rfl (by decide)

/-- C15: for every type of the family `0x40`, with the payload fitting in `msg` behind
the header and all transfers complete, the first transfer `minipro_write_fuses` requests
is an OUT transfer of a frame of exactly 10 bytes: byte 0 = `(type - 1) mod 256`, bytes
1..6 as `msg_init` built them, then the first `min length 3` payload bytes; payload
bytes beyond the third are not in the frame.  The verification frame and the IN
transfer follow. -/
theorem write_fuses_family_40_frames (handle : minipro_handle_t) (type length : Nat)
    (buf : List Nat) (w : World) (sc : List Nat) (resp : List Nat) (rest : List (List Nat))
    (hfam : type &&& 0xf0 = 0x40) (hbuf : buf.length = length)
    (hcap : 18 ≤ w.msg.length) (hcapp : 7 + length ≤ w.msg.length)
    (hs : w.sendCounts = 10 :: 18 :: sc)
    (hr : w.responses = resp :: rest) (hlen : resp.length = 7 + length) :
    ∃ pad vframe,
      ((minipro_write_fuses handle type length buf).run w).2.wire =
        w.wire ++ [Event.out ([(type - 1) % 256, handle.device.protocol_id % 256,
            handle.device.variant % 256, 0x00, handle.device.data_memory_size / 256 % 256,
            handle.device.opts1 % 256, handle.device.opts2 % 256] ++ buf.take 3 ++ pad),
          Event.out vframe, Event.inp (7 + length)] ∧
      pad.length = 3 - length ∧ (buf.take 3).length = min length 3 ∧
      ([(type - 1) % 256, handle.device.protocol_id % 256,
            handle.device.variant % 256, 0x00, handle.device.data_memory_size / 256 % 256,
            handle.device.opts1 % 256, handle.device.opts2 % 256] ++ buf.take 3 ++ pad).length
        = 10 ∧
      vframe.length = 18 ∧ vframe.getD 0 0 = type % 256 := by
  have h11 : 11 ≤ w.msg.length := by omega
  have hw1 := write_fuses_switch_run_40 handle type length buf w (18 :: sc) hfam h11 hs
  have hwire := write_fuses_verify_wire handle type length buf w _ sc resp rest hw1
    (by simp [memcpy, headerBytes]) rfl hr hlen
  obtain ⟨pad, hpad, hpl⟩ := frame_10_shape (type - 1) handle.device (w.msg.drop 11) buf
    length hbuf (by simp; omega)
  have hv := verify_frame_bytes type length handle.device
    (List.drop 11 (memcpy (headerBytes (type - 1) handle.device ++ w.msg.drop 11) 7 buf 0
      length))
    buf (if type = 18 ∧ length = 4 then 2 else 1) (by simp [memcpy, headerBytes]; omega)
  refine ⟨pad, _, ?_, hpl, ?_, ?_, hv.1, hv.2.1⟩
  · rw [hwire]
    simp only []
    rw [hpad]
    simp
  · simp [hbuf, Nat.min_comm]
  · simp [hpl, hbuf]; omega

/-- Witness for `write_fuses_family_40_frames`: type `0x41` and the payload
`[1, 2, 3, 4]`; the 10-byte frame holds `[1, 2, 3]` only. -/
theorem write_fuses_family_40_frames_witness :
    ∃ pad vframe,
      ((minipro_write_fuses sampleHandle 0x41 4 [1, 2, 3, 4]).run
          (sampleWorld 80 [10, 18] [fuseEcho])).2.wire =
        [] ++ [Event.out ([0x40, 0x31, 0x41, 0x00, 0x12, 0xBB, 0xDD] ++
            List.take 3 [1, 2, 3, 4] ++ pad),
          Event.out vframe, Event.inp (7 + 4)] ∧
      pad.length = 3 - 4 ∧ (List.take 3 [1, 2, 3, 4]).length = min 4 3 ∧
      ([0x40, 0x31, 0x41, 0x00, 0x12, 0xBB, 0xDD] ++ List.take 3 [1, 2, 3, 4] ++ pad).length
        = 10 ∧
      vframe.length = 18 ∧ vframe.getD 0 0 = 0x41 :=
  write_fuses_family_40_frames sampleHandle 0x41 4 [1, 2, 3, 4]
    (sampleWorld 80 [10, 18] [fuseEcho]) [] fuseEcho [] (by decide) (by decide) (by decide)
    (by decide) rfl rfl (by decide)

/-- C16: for every type whose family is neither `0x10` nor `0x40`, with all transfers
complete, `minipro_write_fuses` sends no write frame: the only transfers it requests
are the OUT transfer of the 18-byte verification frame, whose byte 0 is
`type mod 256`, and the IN transfer of the response; it returns normally when the
echoed payload equals the payload, and the only fault it can raise is the
verification fault. -/
theorem write_fuses_other_family (handle : minipro_handle_t) (type length : Nat)
    (buf : List Nat) (w : World) (sc : List Nat) (resp : List Nat) (rest : List (List Nat))
    (h10 : ¬ type &&& 0xf0 = 0x10) (h40 : ¬ type &&& 0xf0 = 0x40)
    (hbuf : buf.length = length) (hcap : 18 ≤ w.msg.length)
    (hcapp : 7 + length ≤ w.msg.length) (hs : w.sendCounts = 18 :: sc)
    (hr : w.responses = resp :: rest) (hlen : resp.length = 7 + length) :
    (write_fuses_switch handle type length buf).run w = (.ok (), w) ∧
    (∃ vframe,
      ((minipro_write_fuses handle type length buf).run w).2.wire =
        w.wire ++ [Event.out vframe, Event.inp (7 + length)] ∧
      vframe.length = 18 ∧ vframe.getD 0 0 = type % 256) ∧
    ((resp.drop 7).take length = buf →
      ((minipro_write_fuses handle type length buf).run w).1 = .ok ()) ∧
    (((minipro_write_fuses handle type length buf).run w).1 = .ok () ∨
      ((minipro_write_fuses handle type length buf).run w).1 = .error .VerificationFailure) := by
  have h11 : 11 ≤ w.msg.length := by omega
  have hw1 := write_fuses_switch_run_other handle type length buf w h10 h40
  have hwire := write_fuses_verify_wire handle type length buf w w sc resp rest hw1 h11 hs hr
    hlen
  have hv := verify_frame_bytes type length handle.device (w.msg.drop 11) buf
    (if type = 18 ∧ length = 4 then 2 else 1) (by simp; omega)
  have hres := write_fuses_result handle type length buf w sc resp rest hbuf hcapp
    (by rw [if_neg h10, if_neg h40]; simpa using hs) hr hlen
  refine ⟨hw1, ⟨_, hwire, hv.1, hv.2.1⟩, ?_, ?_⟩
  · intro hecho
    rw [hres, if_pos hecho.symm]
  · rw [hres]
    by_cases h : buf = (resp.drop 7).take length
    · left; rw [if_pos h]
    · right; rw [if_neg h]

/-- Witness for `write_fuses_other_family`: type `0x63` (family `0x60`) with the payload
`[1, 2, 3, 4]` echoed by `fuseEcho`: one verification frame, normal return. -/
theorem write_fuses_other_family_witness :
    (∃ vframe,
      ((minipro_write_fuses sampleHandle 0x63 4 [1, 2, 3, 4]).run
          (sampleWorld 80 [18] [fuseEcho])).2.wire =
        [] ++ [Event.out vframe, Event.inp (7 + 4)] ∧
      vframe.length = 18 ∧ vframe.getD 0 0 = 0x63) ∧
    ((minipro_write_fuses sampleHandle 0x63 4 [1, 2, 3, 4]).run
        (sampleWorld 80 [18] [fuseEcho])).1 = .ok () :=
  ⟨(write_fuses_other_family sampleHandle 0x63 4 [1, 2, 3, 4]
      (sampleWorld 80 [18] [fuseEcho]) [] fuseEcho [] (by decide) (by decide) (by decide)
      (by decide) (by decide) rfl rfl (by decide)).2.1,
   (write_fuses_other_family sampleHandle 0x63 4 [1, 2, 3, 4]
      (sampleWorld 80 [18] [fuseEcho]) [] fuseEcho [] (by decide) (by decide) (by decide)
      (by decide) (by decide) rfl rfl (by decide)).2.2.1 (by decide)⟩

/-! ## get_chip_id -/

/-- The integer `load_int` reads lies within the bytes it is given. -/
theorem load_int_append (r t : List Nat) (off size : Nat) (e : Endianness)
    (h : off + size ≤ r.length) : load_int (r ++ t) off size e = load_int r off size e := by
  unfold load_int
  congr 1
  apply List.map_congr_left
  intro i hi
  have hi2 : off + i < r.length := by
    have := List.mem_range.mp hi
    omega
  simp [List.getD_eq_getElem?_getD, List.getElem?_append_left hi2]

theorem list_sum_map_range (f : Nat → Nat) (n : Nat) :
    ((List.range n).map f).sum = Finset.sum (Finset.range n) f := by
  induction n with
  | zero => simp
  | succ k ih => simp [List.range_succ, Finset.sum_range_succ, ih]

/-- The big-endian integer of `size` bytes, as a sum. -/
theorem load_int_big_endian (r : List Nat) (off size : Nat) :
    load_int r off size .MP_BIG_ENDIAN =
      Finset.sum (Finset.range size) fun i => r.getD (off + i) 0 * 256 ^ (size - 1 - i) := by
  unfold load_int
  exact list_sum_map_range _ size

theorem getD_lt_256 (r : List Nat) (hbytes : ∀ b ∈ r, b < 256) (k : Nat) :
    r.getD k 0 < 256 := by
  rw [List.getD_eq_getElem?_getD]
  by_cases h : k < r.length
  · rw [List.getElem?_eq_getElem h]
    exact hbytes _ (List.getElem_mem h)
  · rw [List.getElem?_eq_none (by omega)]
    decide

/-- With both transfers complete, `minipro_get_chip_id` returns the `int` of the
big-endian integer of response bytes `[2, 2 + n)`. -/
theorem get_chip_id_run (c : Constants) (handle : minipro_handle_t) (w : World)
    (sc : List Nat) (resp : List Nat) (rest : List (List Nat)) (hcap : 11 ≤ w.msg.length)
    (hs : w.sendCounts = 8 :: sc) (hr : w.responses = resp :: rest)
    (hlen : resp.length = 5 + handle.device.chip_id_bytes_count)
    (h4 : handle.device.chip_id_bytes_count ≤ 4) :
    ((minipro_get_chip_id c handle).run w).1 =
      .ok (int_of_unsigned (Finset.sum (Finset.range handle.device.chip_id_bytes_count)
        fun i => resp.getD (2 + i) 0 * 256 ^ (handle.device.chip_id_bytes_count - 1 - i))) ∧
    ((minipro_get_chip_id c handle).run w).2.wire =
      w.wire ++ [Event.out [c.MP_GET_CHIP_ID % 256, handle.device.protocol_id % 256,
          handle.device.variant % 256, 0x00, handle.device.data_memory_size / 256 % 256,
          handle.device.opts1 % 256, handle.device.opts2 % 256,
          handle.device.opts2 / 256 % 256],
        Event.inp (5 + handle.device.chip_id_bytes_count)] := by
  simp only [minipro_get_chip_id, run_bind, msg_init_run _ _ _ hcap]
  rw [run_msg_send_ok 8 _ sc (by simpa using hs)]
  simp only []
  rw [run_msg_recv_ok _ _ resp rest (by simpa using hr) hlen]
  simp only [run_getMsg, run_pure]
  rw [store_zero_eq _ _ (by simp [headerBytes, hlen]; omega)]
  rw [load_int_append _ _ _ _ _ (by omega), load_int_big_endian]
  exact ⟨rfl, by simp [headerBytes]⟩

theorem big_endian_value_lt (r : List Nat) (hbytes : ∀ b ∈ r, b < 256) (off n : Nat)
    (h4 : n ≤ 4) : big_endian_value r off n < 256 ^ n := by
  have h0 := getD_lt_256 r hbytes off
  have h1 := getD_lt_256 r hbytes (off + 1)
  have h2 := getD_lt_256 r hbytes (off + 2)
  have h3 := getD_lt_256 r hbytes (off + 3)
  interval_cases n <;>
    simp only [big_endian_value, Finset.sum_range_succ, Finset.sum_range_zero, Nat.add_zero,
      Nat.zero_add, Nat.reduceSub, Nat.reducePow, Nat.pow_zero, Nat.mul_one] <;>
    omega

theorem int_of_unsigned_small (v : Nat) (h : v < 2 ^ 31) : int_of_unsigned v = (v : Int) := by
  have h32 : v % 2 ^ 32 = v := Nat.mod_eq_of_lt (by omega)
  rw [int_of_unsigned, h32, if_pos h]

theorem int_of_unsigned_large (v : Nat) (h : 2 ^ 31 ≤ v) (h32 : v < 2 ^ 32) :
    int_of_unsigned v = (v : Int) - 2 ^ 32 := by
  have hmod : v % 2 ^ 32 = v := Nat.mod_eq_of_lt h32
  rw [int_of_unsigned, hmod, if_neg (by omega)]

/-- C11, as stated, fails: with `chip_id_bytes_count = 4` and the 9-byte response
`chipIdResponseHigh`, whose bytes 2..5 are `0xFF, 0, 0, 1`, `minipro_get_chip_id` returns
the `int` `-16777215`, not the big-endian integer `4278190081` of those bytes. -/
theorem get_chip_id_int_counterexample :
    chipIdResponseHigh.length = 5 + sampleDevice4.chip_id_bytes_count ∧
    big_endian_value chipIdResponseHigh 2 4 = 4278190081 ∧
    ((minipro_get_chip_id sampleConstants { device := sampleDevice4 }).run
        (sampleWorld 64 [8] [chipIdResponseHigh])).1 = .ok (-16777215) ∧
    ((minipro_get_chip_id sampleConstants { device := sampleDevice4 }).run
        (sampleWorld 64 [8] [chipIdResponseHigh])).1
      ≠ .ok ((big_endian_value chipIdResponseHigh 2 4 : Nat) : Int) :=
  ⟨by decide, by decide, rfl, fun h => absurd (Except.ok.inj h) (by decide)⟩

/-- C11, amended: for every descriptor with `chip_id_bytes_count = n ≤ 4`, with both
transfers complete and a response of `5 + n` bytes, `minipro_get_chip_id` sends an 8-byte
frame with opcode `MP_GET_CHIP_ID`, receives `5 + n` bytes, and returns, as an `int`, the
big-endian integer of response bytes `[2, 2 + n)`: that integer itself when it is below
`2 ^ 31` (always when `n ≤ 3`), and that integer minus `2 ^ 32` otherwise; response bytes
outside `[2, 2 + n)` do not affect the result. -/
theorem get_chip_id_value (c : Constants) (handle : minipro_handle_t) (w : World)
    (sc : List Nat) (resp : List Nat) (rest : List (List Nat)) (n : Nat)
    (hn : handle.device.chip_id_bytes_count = n) (h4 : n ≤ 4) (hcap : 11 ≤ w.msg.length)
    (hs : w.sendCounts = 8 :: sc) (hr : w.responses = resp :: rest)
    (hlen : resp.length = 5 + n) (hbytes : ∀ b ∈ resp, b < 256) :
    ((minipro_get_chip_id c handle).run w).2.wire =
      w.wire ++ [Event.out [c.MP_GET_CHIP_ID % 256, handle.device.protocol_id % 256,
          handle.device.variant % 256, 0x00, handle.device.data_memory_size / 256 % 256,
          handle.device.opts1 % 256, handle.device.opts2 % 256,
          handle.device.opts2 / 256 % 256],
        Event.inp (5 + n)] ∧
    (big_endian_value resp 2 n < 2 ^ 31 →
      ((minipro_get_chip_id c handle).run w).1 = .ok (big_endian_value resp 2 n : Int)) ∧
    (n ≤ 3 →
      ((minipro_get_chip_id c handle).run w).1 = .ok (big_endian_value resp 2 n : Int)) ∧
    (2 ^ 31 ≤ big_endian_value resp 2 n →
      ((minipro_get_chip_id c handle).run w).1 =
        .ok ((big_endian_value resp 2 n : Int) - 2 ^ 32)) ∧
    (∀ resp2 : List Nat, resp2.length = 5 + n →
      (∀ i, i < n → resp2.getD (2 + i) 0 = resp.getD (2 + i) 0) →
      ((minipro_get_chip_id c handle).run { w with responses := resp2 :: rest }).1 =
        ((minipro_get_chip_id c handle).run w).1) := by
  subst hn
  have hrun := get_chip_id_run c handle w sc resp rest hcap hs hr hlen h4
  have hlt := big_endian_value_lt resp hbytes 2 _ h4
  have hpow : (256 : Nat) ^ handle.device.chip_id_bytes_count ≤ 2 ^ 32 := by
    calc (256 : Nat) ^ handle.device.chip_id_bytes_count ≤ 256 ^ 4 :=
          Nat.pow_le_pow_right (by decide) h4
      _ = 2 ^ 32 := by norm_num
  refine ⟨hrun.2, ?_, ?_, ?_, ?_⟩
  · intro hsmall
    rw [hrun.1]
    exact congrArg Except.ok (int_of_unsigned_small _ hsmall)
  · intro h3
    have hpow3 : (256 : Nat) ^ handle.device.chip_id_bytes_count ≤ 256 ^ 3 :=
      Nat.pow_le_pow_right (by decide) h3
    have hsmall : big_endian_value resp 2 handle.device.chip_id_bytes_count < 2 ^ 31 := by
      have : (256 : Nat) ^ 3 < 2 ^ 31 := by norm_num
      omega
    rw [hrun.1]
    exact congrArg Except.ok (int_of_unsigned_small _ hsmall)
  · intro hlarge
    rw [hrun.1]
    exact congrArg Except.ok (int_of_unsigned_large _ hlarge (lt_of_lt_of_le hlt hpow))
  · intro resp2 hlen2 hagree
    rw [(get_chip_id_run c handle { w with responses := resp2 :: rest } sc resp2 rest hcap hs
      rfl hlen2 h4).1, hrun.1]
    congr 2
    apply Finset.sum_congr rfl
    intro i hi
    rw [hagree i (Finset.mem_range.mp hi)]

/-- Witness for `get_chip_id_value`: on the sample descriptor (3 identifier bytes) the
response `chipIdResponse` gives `0x1E9502`. -/
theorem get_chip_id_value_witness :
    ((minipro_get_chip_id sampleConstants sampleHandle).run
        (sampleWorld 64 [8] [chipIdResponse])).1 =
      .ok (big_endian_value chipIdResponse 2 3 : Int) ∧
    big_endian_value chipIdResponse 2 3 = 0x1E9502 :=
  ⟨(get_chip_id_value sampleConstants sampleHandle (sampleWorld 64 [8] [chipIdResponse]) []
      chipIdResponse [] 3 rfl (by decide) (by decide) rfl rfl (by decide)
      (by decide)).2.2.1 (by decide),
   by decide⟩

/-! ## get_system_info: what is decoded -/

/-- With both transfers complete, `minipro_get_system_info` requests the OUT transfer of
the 5-byte frame `[MP_GET_SYSTEM_INFO, 0, 0, 0, 0]` and the IN transfer of 40 bytes. -/
theorem get_system_info_wire (c : Constants) (handle : minipro_handle_t)
    (out : minipro_system_info_t) (w : World) (sc : List Nat) (resp : List Nat)
    (rest : List (List Nat)) (hcap : 5 ≤ w.msg.length) (hs : w.sendCounts = 5 :: sc)
    (hr : w.responses = resp :: rest) (hlen : resp.length = 40) :
    ((minipro_get_system_info c handle out).run w).2.wire =
      w.wire ++ [Event.out [c.MP_GET_SYSTEM_INFO % 256, 0, 0, 0, 0], Event.inp 40] := by
  have hframe : List.take 5 ((store w.msg 0 (List.replicate 5 0)).set 0
      (c.MP_GET_SYSTEM_INFO % 256)) = [c.MP_GET_SYSTEM_INFO % 256, 0, 0, 0, 0] := by
    rw [store_zero_eq _ _ (by simpa using hcap)]
    simp [List.replicate]
  simp only [minipro_get_system_info, run_bind, run_getMsg, run_setMsg]
  rw [run_msg_send_ok 5 _ sc (by simpa using hs)]
  simp only []
  rw [run_msg_recv_into_ok _ 40 _ resp rest (by simpa using hr) hlen]
  simp only [hframe]
  split_ifs <;> simp [Prog.run, ERROR, eprint, pure, bind, Prog.bind]

/-- The decimal form of a byte below 128 passed to `%d` as a `char`. -/
theorem toString_char_value (c : Constants) (b : Nat) (h : b < 128 ∨ c.char_signed = false) :
    toString (char_value c b) = toString b := by
  have hcv : char_value c b = (b : Int) := by
    unfold char_value
    rcases h with h | h
    · rw [if_neg (by omega)]
    · rw [if_neg (by simp [h])]
  rw [hcv]
  rfl

/-- For every valid 40-byte response whose bytes 39, 4 and 5 are below 128 (or where
plain `char` is unsigned), `minipro_get_system_info` decodes the model string, the
firmware number `resp[4] + 256 * resp[5]` and the firmware string of the decimal values
of bytes 39, 4 and 5. -/
theorem get_system_info_decodes (c : Constants) (handle : minipro_handle_t)
    (out : minipro_system_info_t) (w : World) (sc : List Nat) (resp : List Nat)
    (rest : List (List Nat)) (hs : w.sendCounts = 5 :: sc) (hr : w.responses = resp :: rest)
    (hlen : resp.length = 40) (h1 : resp.getD 1 0 = 1 ∨ resp.getD 1 0 = 2)
    (h6 : resp.getD 6 0 = c.MP_TL866A ∨ resp.getD 6 0 = c.MP_TL866CS)
    (h39 : resp.getD 39 0 < 128 ∨ c.char_signed = false)
    (h4 : resp.getD 4 0 < 128 ∨ c.char_signed = false)
    (h5 : resp.getD 5 0 < 128 ∨ c.char_signed = false) :
    ((minipro_get_system_info c handle out).run w).1 =
      .ok { protocol := resp.getD 6 0,
            model_str := if resp.getD 6 0 = c.MP_TL866A then "TL866A" else "TL866CS",
            firmware_str := toString (resp.getD 39 0) ++ "." ++ toString (resp.getD 4 0) ++
              "." ++ toString (resp.getD 5 0),
            firmware := resp.getD 4 0 + 256 * resp.getD 5 0 } := by
  obtain ⟨w2, -, hrun⟩ := get_system_info_run c handle out w sc resp rest hs hr hlen
  have hfw : load_int resp 4 2 .MP_LITTLE_ENDIAN = resp.getD 4 0 + 256 * resp.getD 5 0 := by
    simp [load_int, List.range_succ, Nat.mul_comm]
  rw [hrun, if_neg (not_not.mpr h1), if_pos h6, toString_char_value c _ h39,
    toString_char_value c _ h4, toString_char_value c _ h5, hfw]

/-- C19 does not hold of the code where plain `char` is signed: on `highMinorResponse`, a
valid 40-byte response whose bytes 39, 4, 5 are `3, 200, 2`, `minipro_get_system_info`
decodes the firmware number `200 + 256 * 2` and the model `"TL866CS"`, but the firmware
string is `"3.-56.2"`, not `"3.200.2"`: the byte 200 reaches `%d` as the `char` -56. -/
theorem get_system_info_firmware_str_signed :
    highMinorResponse.length = 40 ∧ highMinorResponse.getD 39 0 = 3 ∧
    highMinorResponse.getD 4 0 = 200 ∧ highMinorResponse.getD 5 0 = 2 ∧
    sampleConstants.char_signed = true ∧
    ((minipro_get_system_info sampleConstants sampleHandle emptyInfo).run
        (sampleWorld 64 [5] [highMinorResponse])).1 =
      .ok { protocol := 2, model_str := "TL866CS", firmware_str := "3.-56.2",
            firmware := 200 + 256 * 2 } :=
  ⟨by decide, by decide, by decide, by decide, rfl, rfl⟩

end Minipro
